import Mathlib

/-!
# The synthetic video origin (`origin.go`)

A shallow embedding of the `/video` handler: `handleVideo` and `serveVideo`.

* Go's `int`, `int64` and `time.Duration` are 64-bit two's-complement integers; they are
  modelled as `Int` with an explicit wrap-around (`wrap64`) after every product and
  quotient.
* The request's query (`r.URL.Query()`, a `map[string][]string`) is the list of its
  entries in the order in which the `range` loop visits them.  Go leaves that order
  unspecified, so statements quantify over every list.
* The effects of the handler are recorded as a list of `Event`s.  What the outside world
  decides (a failing `Read`, a failing `Write`, which case of the `select` runs) is
  supplied by an `Env`, indexed by the loop counter `i`.
* Run-time panics (`time.NewTicker` with a non-positive period, integer division by zero,
  `make` with a negative length or a length above the runtime's limit `maxAlloc`) are
  outcomes of their own.  Memory exhaustion below that limit is outside the embedding: a
  buffer of a length that `make` accepts is taken to be allocated.
* The response writer is the one handed out by `net/http`, which implements
  `http.Flusher`, so the type assertion `w.(http.Flusher)` succeeds.
-/

namespace Origin

/-! ## Machine integers and durations -/

/-- Two's-complement wrap-around of an integer into the signed 64-bit range. -/
def wrap64 (x : Int) : Int := (x + 2 ^ 63) % 2 ^ 64 - 2 ^ 63

/-- Go's `/` on signed 64-bit integers for a non-zero divisor: the quotient is truncated
toward zero (and wraps for `MinInt64 / -1`). -/
def quo (a b : Int) : Int := wrap64 (Int.tdiv a b)

/-- Constant `time.Millisecond`, in nanoseconds. -/
def Millisecond : Int := 1000000

/-- Constant `time.Second`, in nanoseconds. -/
def Second : Int := 1000000000

deriving instance DecidableEq for Except

/-! ## `strconv.Atoi` (Go standard library, 64-bit `int`) -/

/-- The two sentinel errors of package `strconv`. -/
inductive ConvErr where
  | ErrSyntax
  | ErrRange
  deriving DecidableEq

/-- Type `*strconv.NumError`: the failing function, the input text and the cause. -/
structure NumError where
  Func : String
  Num : String
  Err : ConvErr
  deriving DecidableEq

/-- Largest `uint64`. -/
def maxUint64 : Nat := 18446744073709551615

/-- The digit loop of `strconv.ParseUint(s, 10, 64)`; `n` is the value read so far.  A
character that is not a decimal digit is a syntax error; as soon as the value leaves the
`uint64` range the loop stops with `maxUint64` and a range error, without looking at the
remaining characters. -/
def parseUintLoop : List Char → Nat → Nat × Option ConvErr
  | [], n => (n, none)
  | c :: cs, n =>
    if '0' ≤ c ∧ c ≤ '9' then
      if n ≥ maxUint64 / 10 + 1 then (maxUint64, some .ErrRange)
      else
        let n1 := n * 10 + (c.toNat - '0'.toNat)
        if n1 > maxUint64 then (maxUint64, some .ErrRange) else parseUintLoop cs n1
    else (0, some .ErrSyntax)

/-- Function `strconv.ParseUint(s, 10, 64)`. -/
def ParseUint (s : List Char) : Nat × Option ConvErr :=
  match s with
  | [] => (0, some .ErrSyntax)
  | _ => parseUintLoop s 0

/-- Function `strconv.ParseInt(s, 10, 0)`: an optional sign, then `ParseUint`, then the
range check against `1 << 63`. -/
def ParseInt (s : List Char) : Except ConvErr Int :=
  match s with
  | [] => .error .ErrSyntax
  | c :: cs =>
    let neg : Bool := c = '-'
    let un := ParseUint (if c = '+' ∨ c = '-' then cs else c :: cs)
    if un.2 = some .ErrSyntax then .error .ErrSyntax
    else if neg = false ∧ un.1 ≥ 2 ^ 63 then .error .ErrRange
    else if neg = true ∧ un.1 > 2 ^ 63 then .error .ErrRange
    else .ok (if neg then -(un.1 : Int) else (un.1 : Int))

/-- Function `strconv.Atoi`.  Its fast path for short inputs agrees with `ParseInt`, which
is what is modelled; the error names `Atoi` and carries the input text. -/
def Atoi (s : String) : Except NumError Int :=
  match ParseInt s.toList with
  | .error e => .error ⟨"Atoi", s, e⟩
  | .ok n => .ok n

/-! ## Errors -/

/-- The `error` values `serveVideo` can return. -/
inductive GoError where
  /-- Call `fmt.Errorf(msg ++ "%w", err)`: a message wrapping a parse error. -/
  | wrapf (msg : String) (err : NumError)
  /-- Call `fmt.Errorf(msg)`. -/
  | errorf (msg : String)
  /-- Value `ctx.Err()` once `ctx.Done()` is closed (`context.Canceled`). -/
  | ctxErr
  deriving DecidableEq

/-- Text of a `strconv` sentinel error. -/
def ConvErr.Error : ConvErr → String
  | .ErrSyntax => "invalid syntax"
  | .ErrRange => "value out of range"

/-- Method `(*NumError).Error`; `quote` is `strconv.Quote`. -/
def NumError.Error (quote : String → String) (e : NumError) : String :=
  "strconv." ++ e.Func ++ ": parsing " ++ quote e.Num ++ ": " ++ e.Err.Error

/-- Method `Error()` of the values `serveVideo` returns; `quote` is `strconv.Quote`. -/
def GoError.Error (quote : String → String) : GoError → String
  | .wrapf msg err => msg ++ err.Error quote
  | .errorf msg => msg
  | .ctxErr => "context canceled"

/-! ## The request and the resolved parameters -/

/-- One value list of `url.Values`.  `url.ParseQuery` only ever appends to the list of a
key it has met, so a key that is present has a first value `params[0]`. -/
structure Params where
  first : String
  rest : List String
  deriving DecidableEq

/-- The entries of `r.URL.Query()` in the order the `range` loop visits them. -/
abbrev Values := List (String × Params)

/-- The local variables `fps`, `duration`, `bitrate` and `source` of `serveVideo`;
`source` is represented by the seed it was built from. -/
structure Config where
  fps : Int
  duration : Int
  bitrate : Int
  source : Int
  deriving DecidableEq

/-- Initial values (lines 28-31): 30 fps, 2 s, 6 Mb/s, `rand.NewSource(0)`. -/
def defaults : Config := ⟨30, 2 * Second, 6 * 1000 * 1000, 0⟩

/-- The `switch key` body (lines 34-71) for one entry; `params0` is `params[0]`. -/
def visit (c : Config) (key : String) (params0 : String) : Except GoError Config :=
  if key = "seed" then
    match Atoi params0 with
    | .error err => .error (.wrapf "failed to parse seed: " err)
    | .ok seed => .ok { c with source := seed }
  else if key = "duration" then
    match Atoi params0 with
    | .error err => .error (.wrapf "failed to parse duration: " err)
    | .ok durationMs =>
      if durationMs ≤ 0 then .error (.errorf "invalid duration")
      else .ok { c with duration := wrap64 (durationMs * Millisecond) }
  else if key = "fps" then
    match Atoi params0 with
    | .error err => .error (.wrapf "failed to parse fps: " err)
    | .ok fps =>
      if fps ≤ 0 then .error (.errorf "invalid fps")
      else .ok { c with fps := fps }
  else if key = "bitrate" then
    match Atoi params0 with
    | .error err => .error (.wrapf "failed to parse bitrate: " err)
    | .ok bitrate =>
      if bitrate ≤ 0 then .error (.errorf "invalid bitrate")
      else .ok { c with bitrate := bitrate }
  else .ok c

/-- The `for key, params := range r.URL.Query()` loop (lines 33-72) from a given state:
the first failing entry returns its error. -/
def resolveFrom : Values → Config → Except GoError Config
  | [], c => .ok c
  | (key, params) :: rest, c =>
    match visit c key params.first with
    | .error err => .error err
    | .ok c1 => resolveFrom rest c1

/-- Parameter resolution of `serveVideo` (lines 28-72). -/
def resolve (q : Values) : Except GoError Config := resolveFrom q defaults

/-! ## The frame source -/

/-- One byte of a frame. -/
abbrev Byte := UInt8

/-- The generator `rand.New(rand.NewSource(seed))`: its state after seeding and the step
that yields the next byte of `Read` (the state includes the partly consumed 63-bit value
that `Read` keeps between calls). -/
structure Rand where
  σ : Type
  NewSource : Int → σ
  next : σ → Byte × σ

/-- Method `(*rand.Rand).Read(p)` for `len(p) = n`: the `n` bytes and the state after. -/
def Rand.Read (R : Rand) : Nat → R.σ → List Byte × R.σ
  | 0, s => ([], s)
  | n + 1, s =>
    let r := R.Read n (R.next s).2
    ((R.next s).1 :: r.1, r.2)

/-- A small counter generator, used where a statement is instantiated at a concrete
generator. -/
def counterRand : Rand := ⟨Nat, fun seed => seed.natAbs, fun s => (UInt8.ofNat s, s + 1)⟩

/-! ## Effects -/

/-- What the two channels of the `select` (lines 99-103) look like when it runs. -/
inductive Ready where
  /-- Only `ticker.C` can be received from. -/
  | tick
  /-- Only `ctx.Done()` can be received from. -/
  | done
  /-- Both can proceed; Go picks one case pseudo-randomly, here `ctx.Done()` iff `pickDone`. -/
  | both (pickDone : Bool)
  deriving DecidableEq

/-- Whether the `select` runs its `case <-ctx.Done()`. -/
def Ready.cancels : Ready → Bool
  | .tick => false
  | .done => true
  | .both pickDone => pickDone

/-- Whether the request is already cancelled when the `select` runs. -/
def Ready.cancelled : Ready → Bool
  | .tick => false
  | .done => true
  | .both _ => true

/-- The outside world during one request, indexed by the loop counter `i`. -/
structure Env where
  /-- Call `random.Read(frameBuffer)` of iteration `i` returns an error. -/
  readErr : Nat → Bool
  /-- Call `w.Write(frameBuffer)` of iteration `i` returns an error. -/
  writeErr : Nat → Bool
  /-- State of the channels at the `select` of iteration `i`. -/
  select : Nat → Ready

/-- Iteration `i` meets no failing fill, no failing write and no cancellation. -/
def Env.calm (env : Env) (i : Nat) : Bool :=
  !env.readErr i && !env.writeErr i && !(env.select i).cancels

/-- Iterations `0 .. n-1` are all calm. -/
def Env.calmBelow (env : Env) : Nat → Bool
  | 0 => true
  | n + 1 => env.calmBelow n && env.calm n

/-- An environment in which nothing ever fails and the request is never cancelled. -/
def quietEnv : Env := ⟨fun _ => false, fun _ => false, fun _ => .tick⟩

/-- The calls the handler makes on its collaborators. -/
inductive Event where
  /-- Call `random.Read(frameBuffer)` with `len(frameBuffer) = n`; `ok` iff `err == nil`. -/
  | read (n : Nat) (ok : Bool)
  /-- Call `w.Write(frameBuffer)` with the buffer's contents; `ok` iff `err == nil`. -/
  | write (p : List Byte) (ok : Bool)
  /-- Call `flusher.Flush()`. -/
  | flush
  /-- The `select` of lines 99-103; `done` iff `case <-ctx.Done()` ran. -/
  | wait (done : Bool)
  /-- Call `http.Error(w, msg, code)`. -/
  | httpError (msg : String) (code : Nat)
  deriving DecidableEq

/-- How a call ends. -/
inductive Outcome where
  /-- A normal return with the given `error` (`none` is `nil`). -/
  | returned (err : Option GoError)
  /-- A run-time panic. -/
  | panicked (msg : String)
  deriving DecidableEq

/-- The events of a call and how it ended. -/
structure Run where
  events : List Event
  outcome : Outcome
  deriving DecidableEq

/-- The frames handed to successful `w.Write` calls, in order. -/
def writes : List Event → List (List Byte)
  | [] => []
  | .write p true :: es => p :: writes es
  | _ :: es => writes es

/-- The bytes successfully written to the response by `w.Write`. -/
def body (es : List Event) : List Byte := (writes es).flatten

/-- Number of `flusher.Flush()` calls. -/
def flushes (es : List Event) : Nat := es.count .flush

/-! ## The emitter -/

/-- The values `frameCount` and `frameSize` of lines 81-82. -/
structure Geometry where
  frameCount : Int
  frameSize : Int
  deriving DecidableEq

/-- Lines 78-82: the ticker, then `frameCount` and `frameSize`.  The result is the panic
message when `time.NewTicker` or a division panics. -/
def geometry (c : Config) : Except String Geometry :=
  if c.fps = 0 then .error "runtime error: integer divide by zero"
  else if quo Second c.fps ≤ 0 then .error "non-positive interval for NewTicker"
  else
    let frameCount := quo (wrap64 (c.fps * c.duration)) Second
    if wrap64 (8 * c.fps) = 0 then .error "runtime error: integer divide by zero"
    else .ok ⟨frameCount, quo c.bitrate (wrap64 (8 * c.fps))⟩

/-- Constant `maxAlloc` of the Go runtime on 64-bit Linux (48 address bits): the largest
number of bytes `make([]byte, n)` accepts. -/
def maxAlloc : Int := 2 ^ 48

/-- Lines 78-84: the ticker, the frame geometry and the frame buffer.  `make` at line 84
panics when `frameSize` is negative or exceeds `maxAlloc`.  The result is the panic
message when one of the run-time checks fails. -/
def setup (c : Config) : Except String Geometry :=
  match geometry c with
  | .error msg => .error msg
  | .ok g =>
    if g.frameSize < 0 ∨ maxAlloc < g.frameSize then
      .error "runtime error: makeslice: len out of range"
    else .ok g

/-- The loop of lines 86-104 with `n` iterations left, loop counter `i` and generator
state `s`. -/
def emit (R : Rand) (env : Env) (frameSize : Nat) : Nat → Nat → R.σ → Run
  | 0, _, _ => ⟨[], .returned none⟩
  | n + 1, i, s =>
    if env.readErr i then ⟨[.read frameSize false], .returned none⟩
    else
      let fb := R.Read frameSize s
      if env.writeErr i then
        ⟨[.read frameSize true, .write fb.1 false], .returned none⟩
      else if (env.select i).cancels then
        ⟨[.read frameSize true, .write fb.1 true, .flush, .wait true],
          .returned (some .ctxErr)⟩
      else
        let r := emit R env frameSize n (i + 1) fb.2
        ⟨[.read frameSize true, .write fb.1 true, .flush, .wait false] ++ r.events,
          r.outcome⟩

/-- Function `serveVideo` (lines 25-107). -/
def serveVideo (R : Rand) (env : Env) (q : Values) : Run :=
  match resolve q with
  | .error err => ⟨[], .returned (some err)⟩
  | .ok c =>
    match setup c with
    | .error msg => ⟨[], .panicked msg⟩
    | .ok g => emit R env g.frameSize.toNat g.frameCount.toNat 0 (R.NewSource c.source)

/-- Function `handleVideo` (lines 18-23); `quote` is `strconv.Quote`. -/
def handleVideo (quote : String → String) (R : Rand) (env : Env) (q : Values) : Run :=
  let r := serveVideo R env q
  match r.outcome with
  | .returned (some err) => ⟨r.events ++ [.httpError (err.Error quote) 500], .returned none⟩
  | _ => r

/-! ## The request as the specification reads it -/

/-- The keys present in a query. -/
def keys (q : Values) : List String := q.map Prod.fst

/-- The first value `params[0]` supplied for `key`, if the key is present. -/
def first? : Values → String → Option String
  | [], _ => none
  | (k, params) :: rest, key => if k = key then some params.first else first? rest key

/-- The integer a request asks for under `key`: the parse of its first value, or `dflt`
when the key is absent. -/
def requested (q : Values) (key : String) (dflt : Int) : Except NumError Int :=
  match first? q key with
  | none => .ok dflt
  | some v => Atoi v

/-- An entry that is invalid in the words of the specification: a recognized key whose
first value does not parse as an integer, or parses to an integer `≤ 0` for `duration`,
`fps` or `bitrate`. -/
def invalidEntry (key v : String) : Bool :=
  match Atoi v with
  | .error _ => ["seed", "duration", "fps", "bitrate"].contains key
  | .ok n => ["duration", "fps", "bitrate"].contains key && decide (n ≤ 0)

/-- Some entry of the query is invalid. -/
def invalidQuery (q : Values) : Bool := q.any fun e => invalidEntry e.1 e.2.first

/-- The frames a generator in state `s` yields over `n` reads of `size` bytes. -/
def frames (R : Rand) (size : Nat) : Nat → R.σ → List (List Byte)
  | 0, _ => []
  | n + 1, s => (R.Read size s).1 :: frames R size n (R.Read size s).2

/-- State of the generator after `n` reads of `size` bytes. -/
def advance (R : Rand) (size : Nat) : Nat → R.σ → R.σ
  | 0, s => s
  | n + 1, s => advance R size n (R.Read size s).2

/-- The events of one complete iteration: fill, write, flush, then a wait that ends with
the tick. -/
def round (size : Nat) (p : List Byte) : List Event :=
  [.read size true, .write p true, .flush, .wait false]

/-- The events of a sequence of complete iterations, one per frame. -/
def rounds (size : Nat) : List (List Byte) → List Event
  | [] => []
  | p :: ps => round size p ++ rounds size ps

/-- The events of the last iteration of a cancelled run: fill, write, flush, then a wait
that ends with `ctx.Done()`. -/
def cancelledRound (size : Nat) (p : List Byte) : List Event :=
  [.read size true, .write p true, .flush, .wait true]

/-- The events of an iteration cut short by a failing fill (`readErr`) or else by a failing
write of the frame `p`. -/
def failedRound (size : Nat) (p : List Byte) (readErr : Bool) : List Event :=
  if readErr then [.read size false] else [.read size true, .write p false]

/-- An environment in which the client is gone by the time the first `select` runs and
nothing else fails. -/
def goneEnv : Env := ⟨fun _ => false, fun _ => false, fun _ => .done⟩

/-- A stand-in for `strconv.Quote` on text that needs no escaping: the text between
double quotes. -/
def plainQuote (s : String) : String := String.singleton '"' ++ s ++ String.singleton '"'

/-- The four keys the `switch` of lines 34-71 has a case for. -/
def recognized (key : String) : Bool := ["seed", "duration", "fps", "bitrate"].contains key

/-- The query with every value after the first dropped: each key with its `params[0]`. -/
def firsts (q : Values) : List (String × String) := q.map fun e => (e.1, e.2.first)

/-- Whether a tick can be received from `ticker.C` when the `select` runs. -/
def Ready.tickReady : Ready → Bool
  | .tick => true
  | .done => false
  | .both _ => true

/-- Number of pacing waits (runs of the `select`). -/
def waits : List Event → Nat
  | [] => 0
  | .wait _ :: es => waits es + 1
  | _ :: es => waits es

/-- Whether `text` occurs in `msg` as a contiguous piece. -/
def mentions (msg text : String) : Bool :=
  msg.toList.tails.any fun t => text.toList.isPrefixOf t

/-- An environment in which the request is already cancelled at the first `select` while a
tick is ready as well and the runtime picks the tick; at the second `select` only
`ctx.Done()` is ready. -/
def raceEnv : Env :=
  ⟨fun _ => false, fun _ => false, fun i => if i = 0 then .both false else .done⟩

/-! ## Arithmetic -/

theorem wrap64_of_range {x : Int} (h1 : -2 ^ 63 ≤ x) (h2 : x < 2 ^ 63) : wrap64 x = x := by
  unfold wrap64; omega

theorem quo_of_nonneg {a b : Int} (ha : 0 ≤ a) (ha2 : a < 2 ^ 63) (hb : 0 < b) :
    quo a b = a / b := by
  unfold quo
  rw [Int.tdiv_eq_ediv ha (le_of_lt hb)]
  have h1 : 0 ≤ a / b := Int.ediv_nonneg ha (le_of_lt hb)
  have h2 : a / b ≤ a := Int.ediv_le_self b ha
  exact wrap64_of_range (by omega) (by omega)

/-! ## The integer parser -/

theorem ParseInt_range {s : List Char} {n : Int} (h : ParseInt s = .ok n) :
    -2 ^ 63 ≤ n ∧ n < 2 ^ 63 := by
  unfold ParseInt at h
  split at h
  · cases h
  · rename_i c cs
    simp only at h
    generalize ParseUint (if c = '+' ∨ c = '-' then cs else c :: cs) = un at h
    generalize decide (c = '-') = neg at h
    by_cases h1 : un.2 = some .ErrSyntax
    · simp [h1] at h
    · cases neg <;> simp [h1] at h <;> split_ifs at h with h2 <;>
        (injection h with h; subst h; omega)

theorem Atoi_range {v : String} {n : Int} (h : Atoi v = .ok n) : -2 ^ 63 ≤ n ∧ n < 2 ^ 63 := by
  unfold Atoi at h
  split at h
  · cases h
  · rename_i m hm
    injection h with h; subst h
    exact ParseInt_range hm

/-! ## One `switch` step -/

/-- What a successful `switch` step did, by key. -/
theorem visit_ok {c c1 : Config} {key v : String} (h : visit c key v = .ok c1) :
    (key = "seed" ∧ ∃ n, Atoi v = .ok n ∧ c1 = { c with source := n }) ∨
    (key = "duration" ∧ ∃ n, Atoi v = .ok n ∧ 0 < n ∧
      c1 = { c with duration := wrap64 (n * Millisecond) }) ∨
    (key = "fps" ∧ ∃ n, Atoi v = .ok n ∧ 0 < n ∧ c1 = { c with fps := n }) ∨
    (key = "bitrate" ∧ ∃ n, Atoi v = .ok n ∧ 0 < n ∧ c1 = { c with bitrate := n }) ∨
    (key ≠ "seed" ∧ key ≠ "duration" ∧ key ≠ "fps" ∧ key ≠ "bitrate" ∧ c1 = c) := by
  unfold visit at h
  split_ifs at h with k1 k2 k3 k4
  · left
    cases ha : Atoi v with
    | error e => simp [ha] at h
    | ok n => simp [ha] at h; exact ⟨k1, n, rfl, h.symm⟩
  · right; left
    cases ha : Atoi v with
    | error e => simp [ha] at h
    | ok n =>
      simp only [ha] at h
      split_ifs at h with hn
      injection h with h
      exact ⟨k2, n, rfl, by omega, h.symm⟩
  · right; right; left
    cases ha : Atoi v with
    | error e => simp [ha] at h
    | ok n =>
      simp only [ha] at h
      split_ifs at h with hn
      injection h with h
      exact ⟨k3, n, rfl, by omega, h.symm⟩
  · right; right; right; left
    cases ha : Atoi v with
    | error e => simp [ha] at h
    | ok n =>
      simp only [ha] at h
      split_ifs at h with hn
      injection h with h
      exact ⟨k4, n, rfl, by omega, h.symm⟩
  · right; right; right; right
    injection h with h
    exact ⟨k1, k2, k3, k4, h.symm⟩

/-- A `switch` step fails exactly on an invalid entry, whatever the state. -/
theorem visit_error_iff (c : Config) (key v : String) :
    (∃ err, visit c key v = .error err) ↔ invalidEntry key v = true := by
  unfold visit invalidEntry
  by_cases k1 : key = "seed"
  · subst k1
    cases ha : Atoi v <;> simp
  by_cases k2 : key = "duration"
  · subst k2
    cases ha : Atoi v with
    | error e => simp
    | ok n => by_cases hn : n ≤ 0 <;> simp [hn]
  by_cases k3 : key = "fps"
  · subst k3
    cases ha : Atoi v with
    | error e => simp
    | ok n => by_cases hn : n ≤ 0 <;> simp [hn]
  by_cases k4 : key = "bitrate"
  · subst k4
    cases ha : Atoi v with
    | error e => simp
    | ok n => by_cases hn : n ≤ 0 <;> simp [hn]
  cases ha : Atoi v <;> simp [k1, k2, k3, k4]

/-! ## The resolution loop -/

theorem resolveFrom_error_iff (q : Values) (c : Config) :
    (∃ err, resolveFrom q c = .error err) ↔ invalidQuery q = true := by
  induction q generalizing c with
  | nil => simp [resolveFrom, invalidQuery]
  | cons e rest ih =>
    obtain ⟨key, params⟩ := e
    have hv := visit_error_iff c key params.first
    unfold resolveFrom
    cases hstep : visit c key params.first with
    | error err =>
      have : invalidEntry key params.first = true := hv.1 ⟨err, hstep⟩
      simp [invalidQuery, this]
    | ok c1 =>
      have hne : invalidEntry key params.first = false := by
        cases hi : invalidEntry key params.first
        · rfl
        · obtain ⟨err, he⟩ := hv.2 hi
          rw [hstep] at he; cases he
      have := ih c1
      simp only [invalidQuery, List.any_cons, hne, Bool.false_or] at this ⊢
      exact this

theorem resolveFrom_total (q : Values) (c : Config) (h : invalidQuery q = false) :
    ∃ cfg, resolveFrom q c = .ok cfg := by
  cases hr : resolveFrom q c with
  | ok cfg => exact ⟨cfg, rfl⟩
  | error err =>
    have := (resolveFrom_error_iff q c).1 ⟨err, hr⟩
    rw [h] at this; cases this

theorem first?_eq_none {q : Values} {k : String} (h : k ∉ keys q) : first? q k = none := by
  induction q with
  | nil => rfl
  | cons e rest ih =>
    obtain ⟨key, params⟩ := e
    simp only [keys, List.map_cons, List.mem_cons, not_or] at h
    have hk : ¬ key = k := fun hk => h.1 hk.symm
    simp only [first?, hk, if_false]
    exact ih h.2

/-- Each field is written by its own key only: how the final value of a field relates to
the query, for a field `proj` set from key `k` through `g`. -/
theorem resolveFrom_field (proj : Config → Int) (k : String) (g : Int → Int)
    (hvisit : ∀ c key v c1, visit c key v = .ok c1 →
      (key = k ∧ ∃ n, Atoi v = .ok n ∧ proj c1 = g n) ∨ (key ≠ k ∧ proj c1 = proj c)) :
    ∀ (q : Values) (c cfg : Config), resolveFrom q c = .ok cfg →
      (k ∉ keys q → proj cfg = proj c) ∧
      ((keys q).Nodup → ∀ v, first? q k = some v → ∃ n, Atoi v = .ok n ∧ proj cfg = g n) := by
  intro q
  induction q with
  | nil =>
    intro c cfg h
    simp only [resolveFrom] at h
    injection h with h
    subst h
    exact ⟨fun _ => rfl, fun _ v hv => by simp [first?] at hv⟩
  | cons e rest ih =>
    intro c cfg h
    obtain ⟨key, params⟩ := e
    unfold resolveFrom at h
    cases hstep : visit c key params.first with
    | error err => rw [hstep] at h; cases h
    | ok c1 =>
      rw [hstep] at h
      simp only at h
      obtain ⟨ih1, ih2⟩ := ih c1 cfg h
      constructor
      · intro hk
        simp only [keys, List.map_cons, List.mem_cons, not_or] at hk
        rcases hvisit c key params.first c1 hstep with ⟨hkey, _⟩ | ⟨_, hp⟩
        · exact absurd hkey.symm hk.1
        · rw [ih1 hk.2, hp]
      · intro hnd v hv
        simp only [keys, List.map_cons, List.nodup_cons] at hnd
        rcases hvisit c key params.first c1 hstep with ⟨hkey, n, hn, hp⟩ | ⟨hkey, hp⟩
        · subst hkey
          simp only [first?, if_true] at hv
          injection hv with hv
          subst hv
          exact ⟨n, hn, by rw [ih1 hnd.1, hp]⟩
        · simp only [first?, hkey, if_false] at hv
          exact ih2 hnd.2 v hv

theorem visit_fps {c c1 : Config} {key v : String} (h : visit c key v = .ok c1) :
    (key = "fps" ∧ ∃ n, Atoi v = .ok n ∧ c1.fps = id n) ∨ (key ≠ "fps" ∧ c1.fps = c.fps) := by
  rcases visit_ok h with ⟨hk, n, _, hc⟩ | ⟨hk, n, _, _, hc⟩ | ⟨hk, n, hn, _, hc⟩ |
    ⟨hk, n, _, _, hc⟩ | ⟨_, _, hk, _, hc⟩
  · right; subst hk hc; exact ⟨by decide, rfl⟩
  · right; subst hk hc; exact ⟨by decide, rfl⟩
  · left; subst hc; exact ⟨hk, n, hn, rfl⟩
  · right; subst hk hc; exact ⟨by decide, rfl⟩
  · right; subst hc; exact ⟨hk, rfl⟩

theorem visit_bitrate {c c1 : Config} {key v : String} (h : visit c key v = .ok c1) :
    (key = "bitrate" ∧ ∃ n, Atoi v = .ok n ∧ c1.bitrate = id n) ∨
      (key ≠ "bitrate" ∧ c1.bitrate = c.bitrate) := by
  rcases visit_ok h with ⟨hk, n, _, hc⟩ | ⟨hk, n, _, _, hc⟩ | ⟨hk, n, _, _, hc⟩ |
    ⟨hk, n, hn, _, hc⟩ | ⟨_, _, _, hk, hc⟩
  · right; subst hk hc; exact ⟨by decide, rfl⟩
  · right; subst hk hc; exact ⟨by decide, rfl⟩
  · right; subst hk hc; exact ⟨by decide, rfl⟩
  · left; subst hc; exact ⟨hk, n, hn, rfl⟩
  · right; subst hc; exact ⟨hk, rfl⟩

theorem visit_source {c c1 : Config} {key v : String} (h : visit c key v = .ok c1) :
    (key = "seed" ∧ ∃ n, Atoi v = .ok n ∧ c1.source = id n) ∨
      (key ≠ "seed" ∧ c1.source = c.source) := by
  rcases visit_ok h with ⟨hk, n, hn, hc⟩ | ⟨hk, n, _, _, hc⟩ | ⟨hk, n, _, _, hc⟩ |
    ⟨hk, n, _, _, hc⟩ | ⟨hk, _, _, _, hc⟩
  · left; subst hc; exact ⟨hk, n, hn, rfl⟩
  · right; subst hk hc; exact ⟨by decide, rfl⟩
  · right; subst hk hc; exact ⟨by decide, rfl⟩
  · right; subst hk hc; exact ⟨by decide, rfl⟩
  · right; subst hc; exact ⟨hk, rfl⟩

theorem visit_duration {c c1 : Config} {key v : String} (h : visit c key v = .ok c1) :
    (key = "duration" ∧ ∃ n, Atoi v = .ok n ∧
        c1.duration = (fun d => wrap64 (d * Millisecond)) n) ∨
      (key ≠ "duration" ∧ c1.duration = c.duration) := by
  rcases visit_ok h with ⟨hk, n, _, hc⟩ | ⟨hk, n, hn, _, hc⟩ | ⟨hk, n, _, _, hc⟩ |
    ⟨hk, n, _, _, hc⟩ | ⟨_, hk, _, _, hc⟩
  · right; subst hk hc; exact ⟨by decide, rfl⟩
  · left; subst hc; exact ⟨hk, n, hn, rfl⟩
  · right; subst hk hc; exact ⟨by decide, rfl⟩
  · right; subst hk hc; exact ⟨by decide, rfl⟩
  · right; subst hc; exact ⟨hk, rfl⟩

/-- Validation keeps `fps` and `bitrate` strictly positive and inside the 64-bit range. -/
theorem resolveFrom_range (q : Values) (c cfg : Config) (h : resolveFrom q c = .ok cfg)
    (hc : (0 < c.fps ∧ c.fps < 2 ^ 63) ∧ (0 < c.bitrate ∧ c.bitrate < 2 ^ 63)) :
    (0 < cfg.fps ∧ cfg.fps < 2 ^ 63) ∧ (0 < cfg.bitrate ∧ cfg.bitrate < 2 ^ 63) := by
  induction q generalizing c with
  | nil =>
    simp only [resolveFrom] at h
    injection h with h
    subst h
    exact hc
  | cons e rest ih =>
    obtain ⟨key, params⟩ := e
    unfold resolveFrom at h
    cases hstep : visit c key params.first with
    | error err => rw [hstep] at h; cases h
    | ok c1 =>
      rw [hstep] at h
      simp only at h
      apply ih c1 h
      rcases visit_ok hstep with ⟨_, n, _, hc1⟩ | ⟨_, n, _, _, hc1⟩ | ⟨_, n, hn, hpos, hc1⟩ |
        ⟨_, n, hn, hpos, hc1⟩ | ⟨_, _, _, _, hc1⟩
      · subst hc1; exact hc
      · subst hc1; exact hc
      · subst hc1; exact ⟨⟨hpos, (Atoi_range hn).2⟩, hc.2⟩
      · subst hc1; exact ⟨hc.1, ⟨hpos, (Atoi_range hn).2⟩⟩
      · subst hc1; exact hc

theorem resolve_range {q : Values} {cfg : Config} (h : resolve q = .ok cfg) :
    (0 < cfg.fps ∧ cfg.fps < 2 ^ 63) ∧ (0 < cfg.bitrate ∧ cfg.bitrate < 2 ^ 63) :=
  resolveFrom_range q defaults cfg h (by decide)

theorem not_mem_keys_of_first? {q : Values} {k : String} (h : first? q k = none) :
    k ∉ keys q := by
  induction q with
  | nil => simp [keys]
  | cons e rest ih =>
    obtain ⟨key, params⟩ := e
    by_cases hk : key = k
    · simp [first?, hk] at h
    · simp only [first?, hk, if_false] at h
      simp only [keys, List.map_cons, List.mem_cons, not_or]
      exact ⟨fun hk2 => hk hk2.symm, ih h⟩

/-- With distinct keys, a resolved field is the value the request asks for under its key
(the default when the key is absent), passed through `g`. -/
theorem resolve_requested (proj : Config → Int) (k : String) (g : Int → Int) (dflt : Int)
    (hvisit : ∀ c key v c1, visit c key v = .ok c1 →
      (key = k ∧ ∃ n, Atoi v = .ok n ∧ proj c1 = g n) ∨ (key ≠ k ∧ proj c1 = proj c))
    (hd : proj defaults = g dflt) {q : Values} {cfg : Config} {n : Int}
    (hq : (keys q).Nodup) (h : resolve q = .ok cfg) (hn : requested q k dflt = .ok n) :
    proj cfg = g n := by
  have hfield := resolveFrom_field proj k g hvisit q defaults cfg h
  unfold requested at hn
  cases hv : first? q k with
  | none =>
    rw [hv] at hn
    simp only at hn
    injection hn with hn
    rw [hfield.1 (not_mem_keys_of_first? hv), hd, hn]
  | some v =>
    rw [hv] at hn
    simp only at hn
    obtain ⟨m, hm, hp⟩ := hfield.2 hq v hv
    rw [hn] at hm
    injection hm with hm
    rw [hp, hm]

theorem resolve_fps {q : Values} {cfg : Config} {f : Int} (hq : (keys q).Nodup)
    (h : resolve q = .ok cfg) (hf : requested q "fps" 30 = .ok f) : cfg.fps = f :=
  resolve_requested Config.fps "fps" id 30 (fun _ _ _ _ hv => visit_fps hv) rfl hq h hf

theorem resolve_bitrate {q : Values} {cfg : Config} {b : Int} (hq : (keys q).Nodup)
    (h : resolve q = .ok cfg) (hb : requested q "bitrate" 6000000 = .ok b) :
    cfg.bitrate = b :=
  resolve_requested Config.bitrate "bitrate" id 6000000 (fun _ _ _ _ hv => visit_bitrate hv)
    (by decide) hq h hb

theorem resolve_source {q : Values} {cfg : Config} {n : Int} (hq : (keys q).Nodup)
    (h : resolve q = .ok cfg) (hn : requested q "seed" 0 = .ok n) : cfg.source = n :=
  resolve_requested Config.source "seed" id 0 (fun _ _ _ _ hv => visit_source hv) rfl hq h hn

theorem resolve_duration {q : Values} {cfg : Config} {d : Int} (hq : (keys q).Nodup)
    (h : resolve q = .ok cfg) (hd : requested q "duration" 2000 = .ok d) :
    cfg.duration = wrap64 (d * Millisecond) :=
  resolve_requested Config.duration "duration" (fun d => wrap64 (d * Millisecond)) 2000
    (fun _ _ _ _ hv => visit_duration hv) (by decide) hq h hd

theorem first?_mem {q : Values} {k v : String} (h : first? q k = some v) :
    ∃ p, (k, p) ∈ q ∧ p.first = v := by
  induction q with
  | nil => simp [first?] at h
  | cons e rest ih =>
    obtain ⟨key, params⟩ := e
    by_cases hk : key = k
    · simp only [first?, hk, if_true] at h
      injection h with h
      exact ⟨params, by simp [hk], h⟩
    · simp only [first?, hk, if_false] at h
      obtain ⟨p, hp, hv⟩ := ih h
      exact ⟨p, List.mem_cons_of_mem _ hp, hv⟩

theorem resolve_valid {q : Values} {cfg : Config} (h : resolve q = .ok cfg) :
    invalidQuery q = false := by
  cases hi : invalidQuery q
  · rfl
  · obtain ⟨err, he⟩ := (resolveFrom_error_iff q defaults).2 hi
    unfold resolve at h
    rw [h] at he; cases he

/-- A value that passed validation under `duration`, `fps` or `bitrate` is positive. -/
theorem requested_pos {q : Values} {cfg : Config} {k : String} {dflt n : Int}
    (hk : ["duration", "fps", "bitrate"].contains k = true) (hdflt : 0 < dflt)
    (h : resolve q = .ok cfg) (hn : requested q k dflt = .ok n) : 0 < n := by
  unfold requested at hn
  cases hv : first? q k with
  | none =>
    rw [hv] at hn
    simp only at hn
    injection hn with hn
    omega
  | some v =>
    rw [hv] at hn
    simp only at hn
    obtain ⟨p, hp, hpv⟩ := first?_mem hv
    have hq := resolve_valid h
    unfold invalidQuery at hq
    rw [List.any_eq_false] at hq
    have he := hq (k, p) hp
    simp only [hpv] at he
    unfold invalidEntry at he
    rw [hn] at he
    simp only [hk, Bool.true_and] at he
    simpa using he

/-! ## The set-up of the emitter -/

/-- For a positive `fps` of at most `10^9` and a positive 64-bit `bitrate`, lines 78-82 run
without a panic, and the frame size is `bitrate / (8 * fps)`. -/
theorem geometry_ok (c : Config) (hf : 0 < c.fps) (hf2 : c.fps ≤ 1000000000)
    (hb : 0 < c.bitrate) (hb2 : c.bitrate < 2 ^ 63) :
    geometry c = .ok ⟨quo (wrap64 (c.fps * c.duration)) Second, c.bitrate / (8 * c.fps)⟩ := by
  have h0 : ¬ c.fps = 0 := by omega
  have hper : quo Second c.fps = Second / c.fps :=
    quo_of_nonneg (by decide) (by decide) hf
  have hper2 : 1 ≤ Second / c.fps :=
    Int.le_ediv_of_mul_le hf (by simp only [Second]; omega)
  have h8 : wrap64 (8 * c.fps) = 8 * c.fps := wrap64_of_range (by omega) (by omega)
  have hsz : quo c.bitrate (8 * c.fps) = c.bitrate / (8 * c.fps) :=
    quo_of_nonneg (le_of_lt hb) hb2 (by omega)
  unfold geometry
  rw [if_neg h0, hper, if_neg (by omega)]
  simp only [h8]
  rw [if_neg (by omega), hsz]

/-- Above `10^9` frames per second the ticker period rounds to zero and `time.NewTicker`
panics. -/
theorem geometry_panics (c : Config) (hf : 1000000000 < c.fps) (hf2 : c.fps < 2 ^ 63) :
    geometry c = .error "non-positive interval for NewTicker" := by
  have h0 : ¬ c.fps = 0 := by omega
  have hper : quo Second c.fps = Second / c.fps :=
    quo_of_nonneg (by decide) (by decide) (by omega)
  have hper2 : Second / c.fps = 0 :=
    Int.ediv_eq_zero_of_lt (by decide) (by simp only [Second]; omega)
  unfold geometry
  rw [if_neg h0, hper, hper2, if_pos (le_refl _)]

/-- Whenever lines 78-82 of a validated configuration yield a geometry, `fps` is at most
`10^9` and the geometry is the one of `geometry_ok`. -/
theorem geometry_eq (c : Config) (g : Geometry) (hf : 0 < c.fps) (hf2 : c.fps < 2 ^ 63)
    (hb : 0 < c.bitrate) (hb2 : c.bitrate < 2 ^ 63) (hg : geometry c = .ok g) :
    c.fps ≤ 1000000000 ∧
      g = ⟨quo (wrap64 (c.fps * c.duration)) Second, c.bitrate / (8 * c.fps)⟩ := by
  by_cases h : c.fps ≤ 1000000000
  · rw [geometry_ok c hf h hb hb2] at hg
    injection hg with hg
    exact ⟨h, hg.symm⟩
  · rw [geometry_panics c (by omega) hf2] at hg
    cases hg

/-- A set-up that completes went through lines 78-82 and allocated a buffer of a length
between `0` and `maxAlloc`. -/
theorem setup_geometry (c : Config) (g : Geometry) (h : setup c = .ok g) :
    geometry c = .ok g ∧ 0 ≤ g.frameSize ∧ g.frameSize ≤ maxAlloc := by
  unfold setup at h
  cases hg : geometry c with
  | error msg => simp only [hg] at h; cases h
  | ok g1 =>
    simp only [hg] at h
    split_ifs at h with hsz
    injection h with h
    subst h
    exact ⟨rfl, by omega, by omega⟩

/-- For a positive `fps` of at most `10^9` and a positive 64-bit `bitrate` whose frame size
`bitrate / (8 * fps)` is at most `maxAlloc`, none of the run-time checks of lines 78-84
fails. -/
theorem setup_ok (c : Config) (hf : 0 < c.fps) (hf2 : c.fps ≤ 1000000000)
    (hb : 0 < c.bitrate) (hb2 : c.bitrate < 2 ^ 63)
    (hsz : c.bitrate / (8 * c.fps) ≤ maxAlloc) :
    setup c = .ok ⟨quo (wrap64 (c.fps * c.duration)) Second, c.bitrate / (8 * c.fps)⟩ := by
  have hsz2 : 0 ≤ c.bitrate / (8 * c.fps) := Int.ediv_nonneg (le_of_lt hb) (by omega)
  unfold setup
  rw [geometry_ok c hf hf2 hb hb2]
  simp only
  rw [if_neg (by omega)]

/-- Above `10^9` frames per second the set-up ends in the panic of `time.NewTicker`. -/
theorem setup_panics (c : Config) (hf : 1000000000 < c.fps) (hf2 : c.fps < 2 ^ 63) :
    setup c = .error "non-positive interval for NewTicker" := by
  unfold setup
  rw [geometry_panics c hf hf2]

/-- A frame size above `maxAlloc` makes `make` panic at line 84. -/
theorem setup_makeslice (c : Config) (hf : 0 < c.fps) (hf2 : c.fps ≤ 1000000000)
    (hb : 0 < c.bitrate) (hb2 : c.bitrate < 2 ^ 63)
    (hsz : maxAlloc < c.bitrate / (8 * c.fps)) :
    setup c = .error "runtime error: makeslice: len out of range" := by
  unfold setup
  rw [geometry_ok c hf hf2 hb hb2]
  simp only
  rw [if_pos (Or.inr hsz)]

/-- Without overflow the frame count of line 81 is `fps * durationMs / 1000`. -/
theorem frameCount_eq {f d : Int} (hf : 0 < f) (hd : 0 < d)
    (hno : f * d * 1000000 < 2 ^ 63) :
    quo (wrap64 (f * wrap64 (d * Millisecond))) Second = f * d / 1000 := by
  have hfd : d ≤ f * d := by nlinarith
  have hfd0 : 0 ≤ f * d := by nlinarith
  have h1 : wrap64 (d * Millisecond) = d * 1000000 := by
    simp only [Millisecond]
    exact wrap64_of_range (by omega) (by omega)
  have h2 : f * (d * 1000000) = f * d * 1000000 := by ring
  rw [h1, h2, wrap64_of_range (by omega) (by omega),
    quo_of_nonneg (by omega) hno (by decide)]
  have h3 : Second = 1000 * 1000000 := by decide
  rw [h3]
  exact Int.mul_ediv_mul_of_pos_left (f * d) 1000 (by decide)

/-! ## The frame source and the traces of complete iterations -/

theorem Read_length (R : Rand) (n : Nat) (s : R.σ) : (R.Read n s).1.length = n := by
  induction n generalizing s with
  | zero => rfl
  | succ n ih => simp [Rand.Read, ih]

theorem frames_length (R : Rand) (size n : Nat) (s : R.σ) :
    (frames R size n s).length = n := by
  induction n generalizing s with
  | zero => rfl
  | succ n ih => simp [frames, ih]

theorem frames_size (R : Rand) (size n : Nat) (s : R.σ) :
    ∀ p ∈ frames R size n s, p.length = size := by
  induction n generalizing s with
  | zero => intro p hp; simp [frames] at hp
  | succ n ih =>
    intro p hp
    simp only [frames, List.mem_cons] at hp
    rcases hp with hp | hp
    · rw [hp]; exact Read_length R size s
    · exact ih _ p hp

theorem writes_append (a b : List Event) : writes (a ++ b) = writes a ++ writes b := by
  induction a with
  | nil => rfl
  | cons e es ih =>
    cases e with
    | write p ok => cases ok <;> simp [writes, ih]
    | read n ok => simp [writes, ih]
    | flush => simp [writes, ih]
    | wait d => simp [writes, ih]
    | httpError m c => simp [writes, ih]

theorem writes_rounds (size : Nat) (fs : List (List Byte)) : writes (rounds size fs) = fs := by
  induction fs with
  | nil => rfl
  | cons p ps ih => simp [rounds, round, writes, ih]

theorem flushes_rounds (size : Nat) (fs : List (List Byte)) :
    flushes (rounds size fs) = fs.length := by
  induction fs with
  | nil => rfl
  | cons p ps ih =>
    unfold flushes at ih ⊢
    simp [rounds, round, List.count_cons, ih]

theorem flatten_length_of_size {size : Nat} (fs : List (List Byte))
    (h : ∀ p ∈ fs, p.length = size) : fs.flatten.length = fs.length * size := by
  induction fs with
  | nil => simp
  | cons p ps ih =>
    have hp : p.length = size := h p (List.mem_cons_self _ _)
    have := ih (fun x hx => h x (List.mem_cons_of_mem _ hx))
    simp only [List.flatten_cons, List.length_append, List.length_cons, this, hp]
    ring

theorem body_rounds_frames (R : Rand) (size n : Nat) (s : R.σ) :
    (body (rounds size (frames R size n s))).length = n * size := by
  unfold body
  rw [writes_rounds, flatten_length_of_size _ (frames_size R size n s), frames_length]

theorem calm_iff (env : Env) (j : Nat) :
    env.calm j = true ↔
      env.readErr j = false ∧ env.writeErr j = false ∧ (env.select j).cancels = false := by
  unfold Env.calm
  cases env.readErr j <;> cases env.writeErr j <;> cases (env.select j).cancels <;> simp

theorem calmBelow_iff (env : Env) (n : Nat) :
    env.calmBelow n = true ↔ ∀ j, j < n → env.calm j = true := by
  induction n with
  | zero => simp [Env.calmBelow]
  | succ n ih =>
    simp only [Env.calmBelow, Bool.and_eq_true, ih]
    constructor
    · rintro ⟨h1, h2⟩ j hj
      rcases Nat.lt_succ_iff_lt_or_eq.1 hj with h | h
      · exact h1 j h
      · rw [h]; exact h2
    · intro h
      exact ⟨fun j hj => h j (Nat.lt_succ_of_lt hj), h n (Nat.lt_succ_self n)⟩

/-! ## The emit loop -/

/-- One calm iteration: the four events of a round, then the rest of the loop. -/
theorem emit_step (R : Rand) (env : Env) (size n i : Nat) (s : R.σ)
    (h : env.calm i = true) :
    emit R env size (n + 1) i s =
      ⟨round size (R.Read size s).1 ++ (emit R env size n (i + 1) (R.Read size s).2).events,
        (emit R env size n (i + 1) (R.Read size s).2).outcome⟩ := by
  obtain ⟨h1, h2, h3⟩ := (calm_iff env i).1 h
  simp [emit, h1, h2, h3, round]

/-- After `k` calm iterations the loop has produced `k` complete rounds and carries on with
what is left. -/
theorem emit_calm (R : Rand) (env : Env) (size m : Nat) :
    ∀ (k i : Nat) (s : R.σ), (∀ j, i ≤ j → j < i + k → env.calm j = true) →
      emit R env size (k + m) i s =
        ⟨rounds size (frames R size k s) ++
            (emit R env size m (i + k) (advance R size k s)).events,
          (emit R env size m (i + k) (advance R size k s)).outcome⟩ := by
  intro k
  induction k with
  | zero => intro i s _; simp [frames, rounds, advance]
  | succ k ih =>
    intro i s h
    have hi : env.calm i = true := h i (le_refl i) (by omega)
    have hrest := ih (i + 1) (R.Read size s).2 (fun j h1 h2 => h j (by omega) (by omega))
    have hn : k + 1 + m = (k + m) + 1 := by omega
    rw [hn, emit_step R env size (k + m) i s hi, hrest]
    have hik : i + 1 + k = i + (k + 1) := by omega
    simp only [frames, rounds, advance, hik, List.append_assoc]

/-- Iteration `i` with a failing fill: one `Read`, then `return nil`. -/
theorem emit_readErr (R : Rand) (env : Env) (size n i : Nat) (s : R.σ)
    (h : env.readErr i = true) :
    emit R env size (n + 1) i s = ⟨[.read size false], .returned none⟩ := by
  simp [emit, h]

/-- Iteration `i` with a failing write: `Read`, `Write`, then `return nil`. -/
theorem emit_writeErr (R : Rand) (env : Env) (size n i : Nat) (s : R.σ)
    (h1 : env.readErr i = false) (h2 : env.writeErr i = true) :
    emit R env size (n + 1) i s =
      ⟨[.read size true, .write (R.Read size s).1 false], .returned none⟩ := by
  simp [emit, h1, h2]

/-- Iteration `i` whose `select` runs the `ctx.Done()` case. -/
theorem emit_cancel (R : Rand) (env : Env) (size n i : Nat) (s : R.σ)
    (h1 : env.readErr i = false) (h2 : env.writeErr i = false)
    (h3 : (env.select i).cancels = true) :
    emit R env size (n + 1) i s =
      ⟨[.read size true, .write (R.Read size s).1 true, .flush, .wait true],
        .returned (some .ctxErr)⟩ := by
  simp [emit, h1, h2, h3]

/-- A loop whose iterations are all calm: `n` complete rounds and `return nil`. -/
theorem emit_quiet (R : Rand) (env : Env) (size n : Nat) (s : R.σ)
    (h : env.calmBelow n = true) :
    emit R env size n 0 s = ⟨rounds size (frames R size n s), .returned none⟩ := by
  have := emit_calm R env size 0 n 0 s
    (fun j _ hj => (calmBelow_iff env n).1 h j (by omega))
  simpa [emit] using this

/-! ## `serveVideo` by phase -/

theorem serveVideo_of_error (R : Rand) (env : Env) (q : Values) (err : GoError)
    (h : resolve q = .error err) : serveVideo R env q = ⟨[], .returned (some err)⟩ := by
  simp [serveVideo, h]

theorem serveVideo_of_panic (R : Rand) (env : Env) (q : Values) (cfg : Config)
    (msg : String) (h : resolve q = .ok cfg) (hs : setup cfg = .error msg) :
    serveVideo R env q = ⟨[], .panicked msg⟩ := by
  simp [serveVideo, h, hs]

theorem serveVideo_of_setup (R : Rand) (env : Env) (q : Values) (cfg : Config)
    (g : Geometry) (h : resolve q = .ok cfg) (hs : setup cfg = .ok g) :
    serveVideo R env q =
      emit R env g.frameSize.toNat g.frameCount.toNat 0 (R.NewSource cfg.source) := by
  simp [serveVideo, h, hs]

theorem frames_succ (R : Rand) (size n : Nat) (s : R.σ) :
    frames R size (n + 1) s =
      frames R size n s ++ [(R.Read size (advance R size n s)).1] := by
  induction n generalizing s with
  | zero => simp [frames, advance]
  | succ n ih =>
    have := ih (R.Read size s).2
    simp only [frames, advance, List.cons_append] at this ⊢
    rw [this]

/-- Reading zero bytes at a time yields empty frames. -/
theorem frames_zero (R : Rand) (n : Nat) (s : R.σ) :
    frames R 0 n s = List.replicate n [] := by
  induction n generalizing s with
  | zero => rfl
  | succ n ih => simp [frames, Rand.Read, ih, List.replicate_succ]

theorem flushes_append (a b : List Event) : flushes (a ++ b) = flushes a + flushes b := by
  simp [flushes]

/-! ## The claims -/

/-- C1 (counterexample).  The request `?fps=1&duration=10000000000000` passes validation,
but `time.Duration(durationMs) * time.Millisecond` (line 52) overflows 64 bits: the frame
count that line 81 computes
is `-8446744073`, not `floor(1 * 10000000000000 / 1000) = 10000000000`, and the loop
writes no frame. -/
theorem C1_frameCount_overflows :
    (keys [("fps", (⟨"1", []⟩ : Params)), ("duration", ⟨"10000000000000", []⟩)]).Nodup ∧
    requested [("fps", ⟨"1", []⟩), ("duration", ⟨"10000000000000", []⟩)] "fps" 30 = .ok 1 ∧
    requested [("fps", ⟨"1", []⟩), ("duration", ⟨"10000000000000", []⟩)] "duration" 2000
      = .ok 10000000000000 ∧
    resolve [("fps", ⟨"1", []⟩), ("duration", ⟨"10000000000000", []⟩)]
      = .ok ⟨1, -8446744073709551616, 6000000, 0⟩ ∧
    setup ⟨1, -8446744073709551616, 6000000, 0⟩ = .ok ⟨-8446744073, 750000⟩ ∧
    (-8446744073 : Int) ≠ 1 * 10000000000000 / 1000 ∧
    serveVideo counterRand quietEnv [("fps", ⟨"1", []⟩), ("duration", ⟨"10000000000000", []⟩)]
      = ⟨[], .returned none⟩ := by
  decide

/-- C1 (amended).  For every request with distinct keys that passes validation, asking for
`f` frames per second and `d` milliseconds (first values, or the defaults 30 and 2000), if
`f * d * 10^6 < 2^63` (so that neither line 52 nor line 81 overflows), the frame count
that `serveVideo` computes at line 81 is `floor(f * d / 1000)` (on `Int`, `/` by a
positive divisor rounds down): every geometry that lines 78-82 yield has that count, they
do yield one when `f ≤ 10^9`, and whenever the set-up completes the loop runs with that
count. -/
theorem C1_frameCount (q : Values) (cfg : Config) (f d : Int) (hq : (keys q).Nodup)
    (hval : resolve q = .ok cfg) (hf : requested q "fps" 30 = .ok f)
    (hd : requested q "duration" 2000 = .ok d) (hno : f * d * 1000000 < 2 ^ 63) :
    0 < f ∧ 0 < d ∧
    (∀ g, geometry cfg = .ok g → g.frameCount = f * d / 1000) ∧
    (f ≤ 1000000000 → ∃ g, geometry cfg = .ok g ∧ g.frameCount = f * d / 1000) ∧
    (∀ g, setup cfg = .ok g → g.frameCount = f * d / 1000 ∧
      ∀ (R : Rand) (env : Env), serveVideo R env q =
        emit R env g.frameSize.toNat (f * d / 1000).toNat 0 (R.NewSource cfg.source)) := by
  have hfpos : 0 < f := requested_pos (by decide) (by decide) hval hf
  have hdpos : 0 < d := requested_pos (by decide) (by decide) hval hd
  have hcf : cfg.fps = f := resolve_fps hq hval hf
  have hcd : cfg.duration = wrap64 (d * Millisecond) := resolve_duration hq hval hd
  obtain ⟨hfr, hb⟩ := resolve_range hval
  have hcount : ∀ g, geometry cfg = .ok g → g.frameCount = f * d / 1000 := by
    intro g hg
    obtain ⟨_, hgeq⟩ := geometry_eq cfg g hfr.1 hfr.2 hb.1 hb.2 hg
    rw [hgeq, hcf, hcd]
    exact frameCount_eq hfpos hdpos hno
  refine ⟨hfpos, hdpos, hcount, fun hfps => ?_, fun g hg => ?_⟩
  · have hg := geometry_ok cfg hfr.1 (by omega) hb.1 hb.2
    exact ⟨_, hg, hcount _ hg⟩
  · have hc := hcount g (setup_geometry cfg g hg).1
    refine ⟨hc, fun R env => ?_⟩
    rw [← hc]
    exact serveVideo_of_setup R env q cfg g hval hg

/-- C1 (witness).  The amended statement at `?fps=25&duration=1000`: 25 frames. -/
theorem C1_frameCount_witness :
    ∃ g, geometry ⟨25, 1000000000, 6000000, 0⟩ = .ok g ∧ g.frameCount = 25 * 1000 / 1000 :=
  (C1_frameCount [("fps", ⟨"25", []⟩), ("duration", ⟨"1000", []⟩)] ⟨25, 1000000000, 6000000, 0⟩
    25 1000 (by decide) (by decide) (by decide) (by decide) (by decide)).2.2.2.1 (by decide)

/-- C2.  For every request with distinct keys that passes validation, asking for a bitrate
`b` and `f` frames per second (first values, or the defaults 6000000 and 30, any values
the parser accepts), the frame size that `serveVideo` computes at line 82 is
`floor(b / (8 * f))`: every geometry that lines 78-82 yield has that frame size, they do
yield one when `f ≤ 10^9`, and whenever the set-up completes the loop fills and writes
buffers of that size. -/
theorem C2_frameSize (q : Values) (cfg : Config) (f b : Int) (hq : (keys q).Nodup)
    (hval : resolve q = .ok cfg) (hf : requested q "fps" 30 = .ok f)
    (hb : requested q "bitrate" 6000000 = .ok b) :
    0 < f ∧ 0 < b ∧
    (∀ g, geometry cfg = .ok g → g.frameSize = b / (8 * f)) ∧
    (f ≤ 1000000000 → ∃ g, geometry cfg = .ok g ∧ g.frameSize = b / (8 * f)) ∧
    (∀ g, setup cfg = .ok g → g.frameSize = b / (8 * f) ∧
      ∀ (R : Rand) (env : Env), serveVideo R env q =
        emit R env (b / (8 * f)).toNat g.frameCount.toNat 0 (R.NewSource cfg.source)) := by
  have hfpos : 0 < f := requested_pos (by decide) (by decide) hval hf
  have hbpos : 0 < b := requested_pos (by decide) (by decide) hval hb
  have hcf : cfg.fps = f := resolve_fps hq hval hf
  have hcb : cfg.bitrate = b := resolve_bitrate hq hval hb
  obtain ⟨hfr, hbr⟩ := resolve_range hval
  have hsize : ∀ g, geometry cfg = .ok g → g.frameSize = b / (8 * f) := by
    intro g hg
    obtain ⟨_, hgeq⟩ := geometry_eq cfg g hfr.1 hfr.2 hbr.1 hbr.2 hg
    rw [hgeq, hcf, hcb]
  refine ⟨hfpos, hbpos, hsize, fun hfps => ?_, fun g hg => ?_⟩
  · have hg := geometry_ok cfg hfr.1 (by omega) hbr.1 hbr.2
    exact ⟨_, hg, hsize _ hg⟩
  · have hc := hsize g (setup_geometry cfg g hg).1
    refine ⟨hc, fun R env => ?_⟩
    rw [← hc]
    exact serveVideo_of_setup R env q cfg g hval hg

/-- C2 (witness).  The statement at `?fps=1000&bitrate=10`: frames of
`floor(10 / 8000) = 0` bytes. -/
theorem C2_frameSize_witness :
    ∃ g, geometry ⟨1000, 2000000000, 10, 0⟩ = .ok g ∧ g.frameSize = 10 / (8 * 1000) :=
  (C2_frameSize [("fps", ⟨"1000", []⟩), ("bitrate", ⟨"10", []⟩)] ⟨1000, 2000000000, 10, 0⟩
    1000 10 (by decide) (by decide) (by decide) (by decide)).2.2.2.1 (by decide)

/-- C3 (the code on the failing input).  Parameter resolution fails exactly on the queries
with an invalid entry (a recognized key whose first value does not parse as an integer, or
parses to an integer `≤ 0` for `duration`, `fps` or `bitrate`), and a `seed` entry fails
only when its value does not parse.  But the request `?fps=1000000001`, which has no
invalid entry and resolves, does not start streaming: the ticker period
`time.Second / fps` is zero, `time.NewTicker` panics, and `serveVideo` ends without a
single call on the response, in every environment. -/
theorem C3_resolves_but_panics :
    (∀ q : Values, (∃ err, resolve q = .error err) ↔ invalidQuery q = true) ∧
    (∀ (c : Config) (v : String), visit c "seed" v =
      match Atoi v with
      | .error err => .error (.wrapf "failed to parse seed: " err)
      | .ok seed => .ok { c with source := seed }) ∧
    invalidQuery [("fps", ⟨"1000000001", []⟩)] = false ∧
    resolve [("fps", ⟨"1000000001", []⟩)] = .ok ⟨1000000001, 2000000000, 6000000, 0⟩ ∧
    ∀ (R : Rand) (env : Env), serveVideo R env [("fps", ⟨"1000000001", []⟩)]
      = ⟨[], .panicked "non-positive interval for NewTicker"⟩ := by
  refine ⟨fun q => resolveFrom_error_iff q defaults, fun c v => ?_, by decide, by decide,
    fun R env => ?_⟩
  · simp [visit]
  · exact serveVideo_of_panic R env _ ⟨1000000001, 2000000000, 6000000, 0⟩ _
      (by decide) (by decide)

/-- C4.  On every request with an invalid entry, `serveVideo` returns a non-nil error
without any call on the response (no write, no flush, no frame byte), and `handleVideo`
then makes exactly one call, `http.Error` with that error's message and status 500. -/
theorem C4_validation_failure (quote : String → String) (R : Rand) (env : Env) (q : Values)
    (h : invalidQuery q = true) :
    ∃ err, resolve q = .error err ∧
      serveVideo R env q = ⟨[], .returned (some err)⟩ ∧
      body (serveVideo R env q).events = [] ∧ flushes (serveVideo R env q).events = 0 ∧
      handleVideo quote R env q = ⟨[.httpError (err.Error quote) 500], .returned none⟩ := by
  obtain ⟨err, herr⟩ := (resolveFrom_error_iff q defaults).2 h
  have hs := serveVideo_of_error R env q err herr
  refine ⟨err, herr, hs, ?_, ?_, ?_⟩
  · rw [hs]; rfl
  · rw [hs]; rfl
  · simp [handleVideo, hs]

/-- C4 (witness).  The statement at `?seed=abc`. -/
theorem C4_validation_failure_witness :
    ∃ err, resolve [("seed", ⟨"abc", []⟩)] = .error err ∧
      serveVideo counterRand quietEnv [("seed", ⟨"abc", []⟩)] = ⟨[], .returned (some err)⟩ ∧
      body (serveVideo counterRand quietEnv [("seed", ⟨"abc", []⟩)]).events = [] ∧
      flushes (serveVideo counterRand quietEnv [("seed", ⟨"abc", []⟩)]).events = 0 ∧
      handleVideo plainQuote counterRand quietEnv [("seed", ⟨"abc", []⟩)]
        = ⟨[.httpError (err.Error plainQuote) 500], .returned none⟩ :=
  C4_validation_failure plainQuote counterRand quietEnv [("seed", ⟨"abc", []⟩)] (by decide)

/-- C5 (counterexample).  The configuration of `?fps=1&duration=10000000000000` is valid,
the set-up completes and nothing fails in the environment, but line 52 has overflowed and
the frame count of line 81 is `-8446744073`: `serveVideo` returns nil without a write, so
the number of writes is not `frameCount` and the body length is not
`frameCount * frameSize`. -/
theorem C5_negative_frameCount :
    resolve [("fps", ⟨"1", []⟩), ("duration", ⟨"10000000000000", []⟩)]
      = .ok ⟨1, -8446744073709551616, 6000000, 0⟩ ∧
    setup ⟨1, -8446744073709551616, 6000000, 0⟩ = .ok ⟨-8446744073, 750000⟩ ∧
    (∀ n, quietEnv.calmBelow n = true) ∧
    ∀ (R : Rand),
      serveVideo R quietEnv [("fps", ⟨"1", []⟩), ("duration", ⟨"10000000000000", []⟩)]
        = ⟨[], .returned none⟩ ∧
      ((writes (serveVideo R quietEnv
          [("fps", ⟨"1", []⟩), ("duration", ⟨"10000000000000", []⟩)]).events).length : Int)
        ≠ -8446744073 ∧
      ((body (serveVideo R quietEnv
          [("fps", ⟨"1", []⟩), ("duration", ⟨"10000000000000", []⟩)]).events).length : Int)
        ≠ -8446744073 * 750000 := by
  refine ⟨by decide, by decide, fun n => ?_, fun R => ?_⟩
  · exact (calmBelow_iff quietEnv n).2 (fun _ _ => rfl)
  · have hn : (-8446744073 : Int).toNat = 0 := by decide
    have hrun : serveVideo R quietEnv
        [("fps", ⟨"1", []⟩), ("duration", ⟨"10000000000000", []⟩)] = ⟨[], .returned none⟩ := by
      rw [serveVideo_of_setup R quietEnv _ ⟨1, -8446744073709551616, 6000000, 0⟩
        ⟨-8446744073, 750000⟩ (by decide) (by decide)]
      simp only [hn]
      rfl
    rw [hrun]
    exact ⟨rfl, by decide, by decide⟩

/-- C5 (amended).  For every valid configuration on which the set-up of lines 78-84
completes, the frame size is `≥ 0`, and when no fill or write fails and no wait is
cancelled during the loop, `serveVideo` performs exactly `max(frameCount, 0)` iterations,
each a fill, a write of exactly `frameSize` bytes, one flush and then the pacing wait, and
returns nil; the body is `max(frameCount, 0) * frameSize` bytes long.  With `fps=1000` and
`bitrate=10` that is 2000 empty writes, and with `duration=1` the frame count is 0 and the
run succeeds without a write. -/
theorem C5_complete_run (R : Rand) (env : Env) (q : Values) (cfg : Config) (g : Geometry)
    (hval : resolve q = .ok cfg) (hset : setup cfg = .ok g) :
    (0 ≤ g.frameSize ∧
      (env.calmBelow g.frameCount.toNat = true →
        serveVideo R env q =
          ⟨rounds g.frameSize.toNat
            (frames R g.frameSize.toNat g.frameCount.toNat (R.NewSource cfg.source)),
            .returned none⟩ ∧
        writes (serveVideo R env q).events =
          frames R g.frameSize.toNat g.frameCount.toNat (R.NewSource cfg.source) ∧
        (writes (serveVideo R env q).events).length = g.frameCount.toNat ∧
        (∀ p ∈ writes (serveVideo R env q).events, p.length = g.frameSize.toNat) ∧
        flushes (serveVideo R env q).events = g.frameCount.toNat ∧
        (body (serveVideo R env q).events).length
          = g.frameCount.toNat * g.frameSize.toNat)) ∧
    (resolve [("fps", ⟨"1000", []⟩), ("bitrate", ⟨"10", []⟩)]
        = .ok ⟨1000, 2000000000, 10, 0⟩ ∧
      setup ⟨1000, 2000000000, 10, 0⟩ = .ok ⟨2000, 0⟩ ∧
      (env.calmBelow 2000 = true →
        writes (serveVideo R env [("fps", ⟨"1000", []⟩), ("bitrate", ⟨"10", []⟩)]).events
          = List.replicate 2000 [])) ∧
    (resolve [("duration", ⟨"1", []⟩)] = .ok ⟨30, 1000000, 6000000, 0⟩ ∧
      setup ⟨30, 1000000, 6000000, 0⟩ = .ok ⟨0, 25000⟩ ∧
      serveVideo R env [("duration", ⟨"1", []⟩)] = ⟨[], .returned none⟩) := by
  refine ⟨⟨(setup_geometry cfg g hset).2.1, fun hcalm => ?_⟩,
    ⟨by decide, by decide, fun hcalm => ?_⟩, by decide, by decide, ?_⟩
  · have hrun := serveVideo_of_setup R env q cfg _ hval hset
    rw [emit_quiet R env _ _ _ hcalm] at hrun
    rw [hrun]
    refine ⟨rfl, writes_rounds _ _, ?_, ?_, ?_, ?_⟩
    · simp only [writes_rounds, frames_length]
    · simp only [writes_rounds]
      exact frames_size R _ _ _
    · simp only [flushes_rounds, frames_length]
    · exact body_rounds_frames R _ _ _
  · have hrun : serveVideo R env [("fps", ⟨"1000", []⟩), ("bitrate", ⟨"10", []⟩)]
        = emit R env 0 2000 0 (R.NewSource 0) :=
      serveVideo_of_setup R env _ ⟨1000, 2000000000, 10, 0⟩ ⟨2000, 0⟩ (by decide) (by decide)
    rw [emit_quiet R env 0 2000 _ hcalm] at hrun
    rw [hrun]
    simp only [writes_rounds, frames_zero]
  · rw [serveVideo_of_setup R env [("duration", ⟨"1", []⟩)] ⟨30, 1000000, 6000000, 0⟩
      ⟨0, 25000⟩ (by decide) (by decide)]
    rfl

/-- C5 (witness).  The amended statement at `?fps=10&duration=500&bitrate=240` in a quiet
environment: 5 frames are written. -/
theorem C5_complete_run_witness :
    (writes (serveVideo counterRand quietEnv
        [("fps", ⟨"10", []⟩), ("duration", ⟨"500", []⟩), ("bitrate", ⟨"240", []⟩)]).events).length
      = (5 : Int).toNat :=
  ((C5_complete_run counterRand quietEnv
    [("fps", ⟨"10", []⟩), ("duration", ⟨"500", []⟩), ("bitrate", ⟨"240", []⟩)]
    ⟨10, 500000000, 240, 0⟩ ⟨5, 3⟩ (by decide) (by decide)).1.2 (by decide)).2.2.1

theorem calmBelow_quietEnv (n : Nat) : quietEnv.calmBelow n = true :=
  (calmBelow_iff quietEnv n).2 (fun _ _ => rfl)

/-- A run that resolves to `cfg` and meets a calm environment depends on `cfg` only. -/
theorem serveVideo_calm (R : Rand) (env : Env) (q : Values) (cfg : Config)
    (h : resolve q = .ok cfg)
    (hc : ∀ g, setup cfg = .ok g → env.calmBelow g.frameCount.toNat = true) :
    serveVideo R env q =
      match setup cfg with
      | .error msg => ⟨[], .panicked msg⟩
      | .ok g =>
        ⟨rounds g.frameSize.toNat
          (frames R g.frameSize.toNat g.frameCount.toNat (R.NewSource cfg.source)),
          .returned none⟩ := by
  cases hs : setup cfg with
  | error msg => exact serveVideo_of_panic R env q cfg msg h hs
  | ok g =>
    rw [serveVideo_of_setup R env q cfg g h hs]
    exact emit_quiet R env _ _ _ (hc g hs)

/-- C6.  Two requests that resolve to the same seed, duration, fps and bitrate, each run
in an environment where no fill or write fails and no wait is cancelled (possibly two
different environments, and two different queries), make the same calls with the same
frames and end the same way; in particular the bytes written to the response are
identical. -/
theorem C6_determinism (R : Rand) (env1 env2 : Env) (q1 q2 : Values) (cfg : Config)
    (h1 : resolve q1 = .ok cfg) (h2 : resolve q2 = .ok cfg)
    (hc1 : ∀ g, setup cfg = .ok g → env1.calmBelow g.frameCount.toNat = true)
    (hc2 : ∀ g, setup cfg = .ok g → env2.calmBelow g.frameCount.toNat = true) :
    serveVideo R env1 q1 = serveVideo R env2 q2 ∧
    body (serveVideo R env1 q1).events = body (serveVideo R env2 q2).events := by
  have h : serveVideo R env1 q1 = serveVideo R env2 q2 := by
    rw [serveVideo_calm R env1 q1 cfg h1 hc1, serveVideo_calm R env2 q2 cfg h2 hc2]
  exact ⟨h, by rw [h]⟩

/-- C6 (witness).  Two different queries that resolve to seed 42 and the defaults, run
in two different calm environments, give the same run. -/
theorem C6_determinism_witness :
    serveVideo counterRand quietEnv [("seed", ⟨"42", []⟩), ("fps", ⟨"30", []⟩)]
      = serveVideo counterRand ⟨fun _ => false, fun _ => false, fun _ => .both false⟩
          [("x", ⟨"1", []⟩), ("seed", ⟨"+42", ["9"]⟩)] ∧
    body (serveVideo counterRand quietEnv [("seed", ⟨"42", []⟩), ("fps", ⟨"30", []⟩)]).events
      = body (serveVideo counterRand ⟨fun _ => false, fun _ => false, fun _ => .both false⟩
          [("x", ⟨"1", []⟩), ("seed", ⟨"+42", ["9"]⟩)]).events :=
  C6_determinism counterRand quietEnv ⟨fun _ => false, fun _ => false, fun _ => .both false⟩
    [("seed", ⟨"42", []⟩), ("fps", ⟨"30", []⟩)] [("x", ⟨"1", []⟩), ("seed", ⟨"+42", ["9"]⟩)]
    ⟨30, 2000000000, 6000000, 42⟩ (by decide) (by decide)
    (fun g _ => calmBelow_quietEnv _)
    (fun g _ => (calmBelow_iff _ _).2 (fun _ _ => rfl))

/-- C7.  In every request that passes validation, a field whose key is absent keeps its
default (seed 0, 2000 ms, 30 fps, 6,000,000 bit/s) whatever other keys are present; and
the request without parameters has `frameCount = 60` and `frameSize = 25000`, so that a
run in which nothing fails writes 60 frames and a body of 1,500,000 bytes and returns
nil. -/
theorem C7_defaults (q : Values) (cfg : Config) (h : resolve q = .ok cfg) :
    ("seed" ∉ keys q → cfg.source = 0) ∧
    ("duration" ∉ keys q → cfg.duration = 2000 * Millisecond) ∧
    ("fps" ∉ keys q → cfg.fps = 30) ∧
    ("bitrate" ∉ keys q → cfg.bitrate = 6000000) ∧
    resolve [] = .ok ⟨30, 2000 * Millisecond, 6000000, 0⟩ ∧
    setup ⟨30, 2000 * Millisecond, 6000000, 0⟩ = .ok ⟨60, 25000⟩ ∧
    ∀ (R : Rand) (env : Env), env.calmBelow 60 = true →
      (serveVideo R env []).outcome = .returned none ∧
      (writes (serveVideo R env []).events).length = 60 ∧
      (∀ p ∈ writes (serveVideo R env []).events, p.length = 25000) ∧
      (body (serveVideo R env []).events).length = 1500000 := by
  refine ⟨fun hk => ?_, fun hk => ?_, fun hk => ?_, fun hk => ?_, by decide, by decide, ?_⟩
  · exact (resolveFrom_field Config.source "seed" id (fun _ _ _ _ hv => visit_source hv)
      q defaults cfg h).1 hk
  · exact (resolveFrom_field Config.duration "duration" (fun d => wrap64 (d * Millisecond))
      (fun _ _ _ _ hv => visit_duration hv) q defaults cfg h).1 hk
  · exact (resolveFrom_field Config.fps "fps" id (fun _ _ _ _ hv => visit_fps hv)
      q defaults cfg h).1 hk
  · exact (resolveFrom_field Config.bitrate "bitrate" id (fun _ _ _ _ hv => visit_bitrate hv)
      q defaults cfg h).1 hk
  · intro R env hcalm
    have hrun : serveVideo R env [] = emit R env 25000 60 0 (R.NewSource 0) :=
      serveVideo_of_setup R env [] defaults ⟨60, 25000⟩ rfl (by decide)
    rw [emit_quiet R env 25000 60 _ hcalm] at hrun
    rw [hrun]
    refine ⟨rfl, ?_, ?_, ?_⟩
    · simp only [writes_rounds, frames_length]
    · simp only [writes_rounds]
      exact frames_size R _ _ _
    · exact body_rounds_frames R 25000 60 _

/-- C7 (witness).  The statement at `?fps=25`. -/
theorem C7_defaults_witness :
    ("seed" ∉ keys [("fps", ⟨"25", []⟩)] → (⟨25, 2000000000, 6000000, 0⟩ : Config).source = 0) ∧
    ("duration" ∉ keys [("fps", ⟨"25", []⟩)] →
      (⟨25, 2000000000, 6000000, 0⟩ : Config).duration = 2000 * Millisecond) ∧
    ("fps" ∉ keys [("fps", ⟨"25", []⟩)] → (⟨25, 2000000000, 6000000, 0⟩ : Config).fps = 30) ∧
    ("bitrate" ∉ keys [("fps", ⟨"25", []⟩)] →
      (⟨25, 2000000000, 6000000, 0⟩ : Config).bitrate = 6000000) ∧
    resolve [] = .ok ⟨30, 2000 * Millisecond, 6000000, 0⟩ ∧
    setup ⟨30, 2000 * Millisecond, 6000000, 0⟩ = .ok ⟨60, 25000⟩ ∧
    ∀ (R : Rand) (env : Env), env.calmBelow 60 = true →
      (serveVideo R env []).outcome = .returned none ∧
      (writes (serveVideo R env []).events).length = 60 ∧
      (∀ p ∈ writes (serveVideo R env []).events, p.length = 25000) ∧
      (body (serveVideo R env []).events).length = 1500000 :=
  C7_defaults [("fps", ⟨"25", []⟩)] ⟨25, 2000000000, 6000000, 0⟩ (by decide)

/-- C8.  Let the run have reached its loop with `j < frameCount`, let the first `j`
iterations be calm and let frame `j + 1` be filled and written without failure.  If the
pacing wait after that frame takes the `ctx.Done()` case, `serveVideo` stops there: the
trace is `j` complete rounds followed by fill, write, flush and the cancelled wait, nothing
comes after it, exactly `j + 1` frames have been written and flushed, and the result is
the context's error. -/
theorem C8_cancellation (R : Rand) (env : Env) (q : Values) (cfg : Config) (g : Geometry)
    (j : Nat) (hval : resolve q = .ok cfg) (hset : setup cfg = .ok g)
    (hj : (j : Int) < g.frameCount) (hcalm : env.calmBelow j = true)
    (hr : env.readErr j = false) (hw : env.writeErr j = false)
    (hc : (env.select j).cancels = true) :
    serveVideo R env q =
      ⟨rounds g.frameSize.toNat (frames R g.frameSize.toNat j (R.NewSource cfg.source)) ++
          cancelledRound g.frameSize.toNat
            (R.Read g.frameSize.toNat
              (advance R g.frameSize.toNat j (R.NewSource cfg.source))).1,
        .returned (some .ctxErr)⟩ ∧
    writes (serveVideo R env q).events
      = frames R g.frameSize.toNat (j + 1) (R.NewSource cfg.source) ∧
    (writes (serveVideo R env q).events).length = j + 1 ∧
    flushes (serveVideo R env q).events = j + 1 := by
  obtain ⟨m, hm⟩ : ∃ m, g.frameCount.toNat = j + (m + 1) := ⟨g.frameCount.toNat - j - 1, by omega⟩
  have hrun := serveVideo_of_setup R env q cfg g hval hset
  rw [hm, emit_calm R env _ (m + 1) j 0 _
    (fun i _ hi => (calmBelow_iff env j).1 hcalm i (by omega))] at hrun
  simp only [Nat.zero_add] at hrun
  rw [emit_cancel R env _ m j _ hr hw hc] at hrun
  have hrun2 : serveVideo R env q =
      ⟨rounds g.frameSize.toNat (frames R g.frameSize.toNat j (R.NewSource cfg.source)) ++
          cancelledRound g.frameSize.toNat
            (R.Read g.frameSize.toNat
              (advance R g.frameSize.toNat j (R.NewSource cfg.source))).1,
        .returned (some .ctxErr)⟩ := hrun
  have hwr : writes (serveVideo R env q).events
      = frames R g.frameSize.toNat (j + 1) (R.NewSource cfg.source) := by
    rw [hrun2, frames_succ]
    simp only [writes_append, writes_rounds]
    rfl
  refine ⟨hrun2, hwr, ?_, ?_⟩
  · rw [hwr, frames_length]
  · rw [hrun2]
    simp only [flushes_append, flushes_rounds, frames_length]
    rfl

/-- C8 (witness).  On the request without parameters, a wait cancelled after the third
frame leaves exactly three frames written. -/
theorem C8_cancellation_witness :
    (writes (serveVideo counterRand ⟨fun _ => false, fun _ => false,
        fun i => if i = 2 then .done else .tick⟩ []).events).length = 2 + 1 :=
  (C8_cancellation counterRand
    ⟨fun _ => false, fun _ => false, fun i => if i = 2 then .done else .tick⟩ []
    ⟨30, 2000000000, 6000000, 0⟩ ⟨60, 25000⟩ 2 (by decide) (by decide) (by decide) (by decide)
    (by decide) (by decide) (by decide)).2.2.1

theorem writes_failedRound (size : Nat) (p : List Byte) (b : Bool) :
    writes (failedRound size p b) = [] := by
  cases b <;> rfl

theorem flushes_failedRound (size : Nat) (p : List Byte) (b : Bool) :
    flushes (failedRound size p b) = 0 := by
  cases b <;> rfl

/-- C9 (the code on the failing input).  On the request without parameters, when the
`select` after the first frame takes the `ctx.Done()` case, `serveVideo` returns the
context's error after one frame of 25000 bytes has been written and flushed, and
`handleVideo` then calls `http.Error(w, "context canceled", 500)` on the response that is
already streaming. -/
theorem C9_cancellation_rendered (quote : String → String) (R : Rand) :
    serveVideo R goneEnv [] =
      ⟨cancelledRound 25000 (R.Read 25000 (R.NewSource 0)).1, .returned (some .ctxErr)⟩ ∧
    handleVideo quote R goneEnv [] =
      ⟨cancelledRound 25000 (R.Read 25000 (R.NewSource 0)).1 ++
        [.httpError "context canceled" 500], .returned none⟩ := by
  have hrun : serveVideo R goneEnv [] = emit R goneEnv 25000 (59 + 1) 0 (R.NewSource 0) :=
    serveVideo_of_setup R goneEnv [] defaults ⟨60, 25000⟩ rfl (by decide)
  rw [emit_cancel R goneEnv 25000 59 0 _ rfl rfl rfl] at hrun
  refine ⟨hrun, ?_⟩
  simp only [handleVideo, hrun]
  rfl

/-- C10.  Let the run have reached its loop with `k < frameCount` and let the first `k`
iterations be calm.  If the fill of frame `k + 1` fails, or its write fails, `serveVideo`
returns nil at once: the trace is `k` complete rounds followed by the failed `Read`, or by
the `Read` and the failed `Write`; no flush, fill, write or wait follows; and `handleVideo`
adds nothing, so that no error is surfaced. -/
theorem C10_io_failure (quote : String → String) (R : Rand) (env : Env) (q : Values)
    (cfg : Config) (g : Geometry) (k : Nat) (hval : resolve q = .ok cfg)
    (hset : setup cfg = .ok g) (hk : (k : Int) < g.frameCount)
    (hcalm : env.calmBelow k = true)
    (hfail : env.readErr k = true ∨ env.writeErr k = true) :
    serveVideo R env q =
      ⟨rounds g.frameSize.toNat (frames R g.frameSize.toNat k (R.NewSource cfg.source)) ++
          failedRound g.frameSize.toNat
            (R.Read g.frameSize.toNat
              (advance R g.frameSize.toNat k (R.NewSource cfg.source))).1 (env.readErr k),
        .returned none⟩ ∧
    handleVideo quote R env q = serveVideo R env q ∧
    writes (serveVideo R env q).events
      = frames R g.frameSize.toNat k (R.NewSource cfg.source) ∧
    flushes (serveVideo R env q).events = k := by
  obtain ⟨m, hm⟩ : ∃ m, g.frameCount.toNat = k + (m + 1) := ⟨g.frameCount.toNat - k - 1, by omega⟩
  have hrun := serveVideo_of_setup R env q cfg g hval hset
  rw [hm, emit_calm R env _ (m + 1) k 0 _
    (fun i _ hi => (calmBelow_iff env k).1 hcalm i (by omega))] at hrun
  simp only [Nat.zero_add] at hrun
  have hrun2 : serveVideo R env q =
      ⟨rounds g.frameSize.toNat (frames R g.frameSize.toNat k (R.NewSource cfg.source)) ++
          failedRound g.frameSize.toNat
            (R.Read g.frameSize.toNat
              (advance R g.frameSize.toNat k (R.NewSource cfg.source))).1 (env.readErr k),
        .returned none⟩ := by
    cases hr : env.readErr k with
    | true =>
      rw [emit_readErr R env _ m k _ hr] at hrun
      exact hrun
    | false =>
      have hw : env.writeErr k = true := by
        rcases hfail with h | h
        · rw [hr] at h; cases h
        · exact h
      rw [emit_writeErr R env _ m k _ hr hw] at hrun
      exact hrun
  refine ⟨hrun2, ?_, ?_, ?_⟩
  · simp only [handleVideo, hrun2]
  · rw [hrun2]
    simp only [writes_append, writes_rounds, writes_failedRound, List.append_nil]
  · rw [hrun2]
    simp only [flushes_append, flushes_rounds, flushes_failedRound, frames_length,
      Nat.add_zero]

/-- C10 (witness).  On `?fps=10`, a write that fails at the fourth frame surfaces no
error: `handleVideo` adds nothing to the run of `serveVideo`. -/
theorem C10_io_failure_witness :
    handleVideo plainQuote counterRand
        ⟨fun _ => false, fun i => decide (i = 3), fun _ => .tick⟩ [("fps", ⟨"10", []⟩)]
      = serveVideo counterRand
        ⟨fun _ => false, fun i => decide (i = 3), fun _ => .tick⟩ [("fps", ⟨"10", []⟩)] :=
  (C10_io_failure plainQuote counterRand
    ⟨fun _ => false, fun i => decide (i = 3), fun _ => .tick⟩ [("fps", ⟨"10", []⟩)]
    ⟨10, 2000000000, 6000000, 0⟩ ⟨20, 75000⟩ 3 (by decide) (by decide) (by decide)
    (by decide) (Or.inr (by decide))).2.1

/-! ## Which error, and what resolution depends on -/

/-- What a failing `switch` step returns, by cause. -/
theorem visit_error {c : Config} {key v : String} {err : GoError}
    (h : visit c key v = .error err) :
    recognized key = true ∧
    ((∃ kind, Atoi v = .error ⟨"Atoi", v, kind⟩ ∧
        err = .wrapf ("failed to parse " ++ key ++ ": ") ⟨"Atoi", v, kind⟩) ∨
      (∃ n, Atoi v = .ok n ∧ n ≤ 0 ∧ key ≠ "seed" ∧ err = .errorf ("invalid " ++ key))) := by
  have hat : ∀ e, Atoi v = .error e → e = ⟨"Atoi", v, e.Err⟩ := by
    intro e he
    unfold Atoi at he
    split at he
    · injection he with he; rw [← he]
    · cases he
  unfold visit at h
  split_ifs at h with k1 k2 k3 k4
  · subst k1
    refine ⟨by decide, ?_⟩
    cases ha : Atoi v with
    | error e =>
      rw [ha] at h
      injection h with h
      left
      exact ⟨e.Err, by rw [← hat e ha], by rw [← h, ← hat e ha]; rfl⟩
    | ok n => rw [ha] at h; cases h
  · subst k2
    refine ⟨by decide, ?_⟩
    cases ha : Atoi v with
    | error e =>
      rw [ha] at h
      injection h with h
      left
      exact ⟨e.Err, by rw [← hat e ha], by rw [← h, ← hat e ha]; rfl⟩
    | ok n =>
      rw [ha] at h
      simp only at h
      split_ifs at h with hn
      injection h with h
      right
      exact ⟨n, rfl, hn, by decide, by rw [← h]; rfl⟩
  · subst k3
    refine ⟨by decide, ?_⟩
    cases ha : Atoi v with
    | error e =>
      rw [ha] at h
      injection h with h
      left
      exact ⟨e.Err, by rw [← hat e ha], by rw [← h, ← hat e ha]; rfl⟩
    | ok n =>
      rw [ha] at h
      simp only at h
      split_ifs at h with hn
      injection h with h
      right
      exact ⟨n, rfl, hn, by decide, by rw [← h]; rfl⟩
  · subst k4
    refine ⟨by decide, ?_⟩
    cases ha : Atoi v with
    | error e =>
      rw [ha] at h
      injection h with h
      left
      exact ⟨e.Err, by rw [← hat e ha], by rw [← h, ← hat e ha]; rfl⟩
    | ok n =>
      rw [ha] at h
      simp only at h
      split_ifs at h with hn
      injection h with h
      right
      exact ⟨n, rfl, hn, by decide, by rw [← h]; rfl⟩

/-- The error of a failing `switch` step does not depend on the state. -/
theorem visit_error_indep {c c1 : Config} {key v : String} {err : GoError}
    (h : visit c key v = .error err) : visit c1 key v = .error err := by
  unfold visit at h ⊢
  split_ifs at h ⊢ with k1 k2 k3 k4
  · cases ha : Atoi v with
    | error e => simp only [ha] at h ⊢; exact h
    | ok n => simp only [ha] at h; cases h
  · cases ha : Atoi v with
    | error e => simp only [ha] at h ⊢; exact h
    | ok n =>
      simp only [ha] at h ⊢
      split_ifs at h ⊢ with hn
      exact h
  · cases ha : Atoi v with
    | error e => simp only [ha] at h ⊢; exact h
    | ok n =>
      simp only [ha] at h ⊢
      split_ifs at h ⊢ with hn
      exact h
  · cases ha : Atoi v with
    | error e => simp only [ha] at h ⊢; exact h
    | ok n =>
      simp only [ha] at h ⊢
      split_ifs at h ⊢ with hn
      exact h

/-- A failing resolution returns the error of one of the entries of the query. -/
theorem resolveFrom_error_entry (q : Values) (c : Config) (err : GoError)
    (h : resolveFrom q c = .error err) :
    ∃ key p, (key, p) ∈ q ∧ visit defaults key p.first = .error err := by
  induction q generalizing c with
  | nil => simp [resolveFrom] at h
  | cons e rest ih =>
    obtain ⟨key, params⟩ := e
    unfold resolveFrom at h
    cases hstep : visit c key params.first with
    | error e1 =>
      rw [hstep] at h
      injection h with h
      subst h
      exact ⟨key, params, List.mem_cons_self _ _, visit_error_indep hstep⟩
    | ok c1 =>
      rw [hstep] at h
      obtain ⟨k, p, hp, hv⟩ := ih c1 h
      exact ⟨k, p, List.mem_cons_of_mem _ hp, hv⟩

/-- An unrecognized key leaves the state as it is. -/
theorem visit_unrecognized (c : Config) (key v : String) (h : recognized key = false) :
    visit c key v = .ok c := by
  have h1 : ¬ key = "seed" := by intro hk; subst hk; revert h; decide
  have h2 : ¬ key = "duration" := by intro hk; subst hk; revert h; decide
  have h3 : ¬ key = "fps" := by intro hk; subst hk; revert h; decide
  have h4 : ¬ key = "bitrate" := by intro hk; subst hk; revert h; decide
  simp [visit, h1, h2, h3, h4]

/-- Resolution sees only the entries with a recognized key. -/
theorem resolveFrom_filter (q : Values) (c : Config) :
    resolveFrom (q.filter fun e => recognized e.1) c = resolveFrom q c := by
  induction q generalizing c with
  | nil => rfl
  | cons e rest ih =>
    obtain ⟨key, params⟩ := e
    cases hk : recognized key with
    | true =>
      simp only [List.filter_cons, hk, if_true, resolveFrom]
      cases visit c key params.first with
      | error err => rfl
      | ok c1 => exact ih c1
    | false =>
      simp only [List.filter_cons, hk, resolveFrom, visit_unrecognized c key params.first hk]
      simpa using ih c

/-- Resolution sees only the first value of each entry. -/
theorem resolveFrom_firsts (q1 q2 : Values) (c : Config) (h : firsts q1 = firsts q2) :
    resolveFrom q1 c = resolveFrom q2 c := by
  induction q1 generalizing q2 c with
  | nil =>
    cases q2 with
    | nil => rfl
    | cons e rest => simp [firsts] at h
  | cons e1 rest1 ih =>
    cases q2 with
    | nil => simp [firsts] at h
    | cons e2 rest2 =>
      obtain ⟨k1, p1⟩ := e1
      obtain ⟨k2, p2⟩ := e2
      simp only [firsts, List.map_cons, List.cons.injEq, Prod.mk.injEq] at h
      obtain ⟨⟨hk, hp⟩, hrest⟩ := h
      subst hk
      simp only [resolveFrom, hp]
      cases visit c k1 p2.first with
      | error err => rfl
      | ok c1 => exact ih rest2 c1 hrest

/-- The run of `serveVideo` is a function of the outcome of resolution. -/
theorem serveVideo_congr (R : Rand) (env : Env) (q1 q2 : Values)
    (h : resolve q1 = resolve q2) : serveVideo R env q1 = serveVideo R env q2 := by
  simp only [serveVideo, h]

theorem mem_first? {q : Values} {k : String} {p : Params} (hq : (keys q).Nodup)
    (h : (k, p) ∈ q) : first? q k = some p.first := by
  induction q with
  | nil => simp at h
  | cons e rest ih =>
    obtain ⟨key, params⟩ := e
    simp only [keys, List.map_cons, List.nodup_cons] at hq
    rcases List.mem_cons.1 h with h1 | h1
    · injection h1 with hk hp
      subst hk hp
      simp [first?]
    · have hne : ¬ key = k := by
        intro hk
        subst hk
        exact hq.1 (List.mem_map.2 ⟨(key, p), h1, rfl⟩)
      simp only [first?, hne, if_false]
      exact ih hq.2 h1

/-- With distinct keys, the first value found for a key does not depend on the order of
the entries. -/
theorem first?_perm {q1 q2 : Values} (hp : q1.Perm q2) (hq : (keys q1).Nodup) (k : String) :
    first? q1 k = first? q2 k := by
  have hq2 : (keys q2).Nodup := (List.Perm.nodup_iff (List.Perm.map Prod.fst hp)).1 hq
  cases h1 : first? q1 k with
  | none =>
    have hk : k ∉ keys q2 := fun hk =>
      not_mem_keys_of_first? h1 ((List.Perm.mem_iff (List.Perm.map Prod.fst hp)).2 hk)
    exact (first?_eq_none hk).symm
  | some v =>
    obtain ⟨p, hmem, hv⟩ := first?_mem h1
    rw [mem_first? hq2 ((List.Perm.mem_iff hp).1 hmem), hv]

theorem invalidQuery_perm {q1 q2 : Values} (hp : q1.Perm q2) :
    invalidQuery q1 = invalidQuery q2 := by
  rw [Bool.eq_iff_iff]
  unfold invalidQuery
  simp only [List.any_eq_true]
  constructor
  · rintro ⟨x, hx, h⟩; exact ⟨x, (List.Perm.mem_iff hp).1 hx, h⟩
  · rintro ⟨x, hx, h⟩; exact ⟨x, (List.Perm.mem_iff hp).2 hx, h⟩

/-- Two successful resolutions of queries that supply the same first value under every
key end in the same value of a field. -/
theorem field_eq_of_first? (proj : Config → Int) (k : String) (g : Int → Int)
    (hvisit : ∀ c key v c1, visit c key v = .ok c1 →
      (key = k ∧ ∃ n, Atoi v = .ok n ∧ proj c1 = g n) ∨ (key ≠ k ∧ proj c1 = proj c))
    {q1 q2 : Values} {c1 c2 : Config} (hq1 : (keys q1).Nodup) (hq2 : (keys q2).Nodup)
    (hf : first? q1 k = first? q2 k)
    (h1 : resolve q1 = .ok c1) (h2 : resolve q2 = .ok c2) : proj c1 = proj c2 := by
  have f1 := resolveFrom_field proj k g hvisit q1 defaults c1 h1
  have f2 := resolveFrom_field proj k g hvisit q2 defaults c2 h2
  cases hv : first? q1 k with
  | none =>
    rw [f1.1 (not_mem_keys_of_first? hv), f2.1 (not_mem_keys_of_first? (hf ▸ hv))]
  | some v =>
    obtain ⟨n1, hn1, hp1⟩ := f1.2 hq1 v hv
    obtain ⟨n2, hn2, hp2⟩ := f2.2 hq2 v (hf ▸ hv)
    rw [hn1] at hn2
    injection hn2 with hn2
    rw [hp1, hp2, hn2]

/-- With distinct keys, a successful resolution gives the same parameters in every order
of the entries. -/
theorem resolve_perm_ok {q1 q2 : Values} {c1 : Config} (hp : q1.Perm q2)
    (hq : (keys q1).Nodup) (h1 : resolve q1 = .ok c1) : resolve q2 = .ok c1 := by
  have hq2 : (keys q2).Nodup := (List.Perm.nodup_iff (List.Perm.map Prod.fst hp)).1 hq
  have hv2 : invalidQuery q2 = false := by rw [← invalidQuery_perm hp]; exact resolve_valid h1
  obtain ⟨c2, h2⟩ := resolveFrom_total q2 defaults hv2
  have e1 := field_eq_of_first? Config.fps "fps" id (fun _ _ _ _ hv => visit_fps hv)
    hq hq2 (first?_perm hp hq _) h1 h2
  have e2 := field_eq_of_first? Config.duration "duration" (fun d => wrap64 (d * Millisecond))
    (fun _ _ _ _ hv => visit_duration hv) hq hq2 (first?_perm hp hq _) h1 h2
  have e3 := field_eq_of_first? Config.bitrate "bitrate" id (fun _ _ _ _ hv => visit_bitrate hv)
    hq hq2 (first?_perm hp hq _) h1 h2
  have e4 := field_eq_of_first? Config.source "seed" id (fun _ _ _ _ hv => visit_source hv)
    hq hq2 (first?_perm hp hq _) h1 h2
  have : c2 = c1 := by
    cases c1; cases c2
    simp only at e1 e2 e3 e4
    simp [e1, e2, e3, e4]
  rw [← this]
  exact h2

/-- C11 (counterexample).  On `?duration=0` the value parses but fails validation:
`serveVideo` returns the error `invalid duration`, whose message names the key and does
not contain the raw value `0`. -/
theorem C11_value_not_reported :
    resolve [("duration", ⟨"0", []⟩)] = .error (.errorf "invalid duration") ∧
    serveVideo counterRand quietEnv [("duration", ⟨"0", []⟩)]
      = ⟨[], .returned (some (.errorf "invalid duration"))⟩ ∧
    (∀ quote : String → String,
      (GoError.errorf "invalid duration").Error quote = "invalid duration") ∧
    mentions "invalid duration" "duration" = true ∧
    mentions "invalid duration" "0" = false := by
  refine ⟨by decide, by decide, fun _ => rfl, by decide, by decide⟩

/-- C11 (amended).  When resolution fails, `serveVideo` returns the error of an entry of
the query with a recognized key.  If the first value of that entry does not parse, the
error wraps the `strconv` error, which carries the raw value, behind the text
`failed to parse <key>: `, so the message names the key and shows the value as
`strconv.Quote` renders it.  If the value parses to an integer `≤ 0` (for `duration`,
`fps` or `bitrate`), the error is `invalid <key>`: it names the key and not the value. -/
theorem C11_error_content (R : Rand) (env : Env) (q : Values) (err : GoError)
    (h : resolve q = .error err) :
    serveVideo R env q = ⟨[], .returned (some err)⟩ ∧
    ∃ key p, (key, p) ∈ q ∧ recognized key = true ∧
      ((∃ kind, Atoi p.first = .error ⟨"Atoi", p.first, kind⟩ ∧
          err = .wrapf ("failed to parse " ++ key ++ ": ") ⟨"Atoi", p.first, kind⟩ ∧
          ∀ quote : String → String, err.Error quote =
            "failed to parse " ++ key ++ ": " ++
              ("strconv.Atoi: parsing " ++ quote p.first ++ ": " ++ kind.Error)) ∨
        (∃ n, Atoi p.first = .ok n ∧ n ≤ 0 ∧ key ≠ "seed" ∧
          err = .errorf ("invalid " ++ key) ∧
          ∀ quote : String → String, err.Error quote = "invalid " ++ key)) := by
  refine ⟨serveVideo_of_error R env q err h, ?_⟩
  obtain ⟨key, p, hmem, hv⟩ := resolveFrom_error_entry q defaults err h
  obtain ⟨hrec, hcase⟩ := visit_error hv
  refine ⟨key, p, hmem, hrec, ?_⟩
  rcases hcase with ⟨kind, ha, he⟩ | ⟨n, ha, hn, hk, he⟩
  · left
    refine ⟨kind, ha, he, fun quote => ?_⟩
    subst he
    simp only [GoError.Error, NumError.Error, String.append_assoc]
    rfl
  · right
    refine ⟨n, ha, hn, hk, he, fun quote => ?_⟩
    subst he
    rfl

/-- C11 (witness).  The amended statement at `?seed=abc`. -/
theorem C11_error_content_witness :
    serveVideo counterRand quietEnv [("seed", ⟨"abc", []⟩)]
      = ⟨[], .returned
          (some (.wrapf "failed to parse seed: " ⟨"Atoi", "abc", .ErrSyntax⟩))⟩ :=
  (C11_error_content counterRand quietEnv [("seed", ⟨"abc", []⟩)]
    (.wrapf "failed to parse seed: " ⟨"Atoi", "abc", .ErrSyntax⟩) (by decide)).1

/-- C12 (counterexample).  The mapping `seed=abc, fps=0` has two invalid entries: visited
seed first, `serveVideo` returns the parse error of `seed`; visited fps first, it returns
`invalid fps`.  The two orders do not reach the same error. -/
theorem C12_error_depends_on_order :
    List.Perm [("seed", (⟨"abc", []⟩ : Params)), ("fps", ⟨"0", []⟩)]
      [("fps", ⟨"0", []⟩), ("seed", ⟨"abc", []⟩)] ∧
    (keys [("seed", ⟨"abc", []⟩), ("fps", ⟨"0", []⟩)]).Nodup ∧
    resolve [("seed", ⟨"abc", []⟩), ("fps", ⟨"0", []⟩)]
      = .error (.wrapf "failed to parse seed: " ⟨"Atoi", "abc", .ErrSyntax⟩) ∧
    resolve [("fps", ⟨"0", []⟩), ("seed", ⟨"abc", []⟩)] = .error (.errorf "invalid fps") ∧
    serveVideo counterRand quietEnv [("seed", ⟨"abc", []⟩), ("fps", ⟨"0", []⟩)]
      ≠ serveVideo counterRand quietEnv [("fps", ⟨"0", []⟩), ("seed", ⟨"abc", []⟩)] := by
  decide

/-- A failing resolution returns the error of the first invalid entry in visiting order:
every entry visited before it is valid. -/
theorem resolveFrom_error_first (q : Values) (c : Config) (err : GoError)
    (h : resolveFrom q c = .error err) :
    ∃ pre key p post, q = pre ++ (key, p) :: post ∧ invalidQuery pre = false ∧
      invalidEntry key p.first = true ∧ visit defaults key p.first = .error err := by
  induction q generalizing c with
  | nil => simp [resolveFrom] at h
  | cons e rest ih =>
    obtain ⟨key, params⟩ := e
    unfold resolveFrom at h
    cases hstep : visit c key params.first with
    | error e1 =>
      rw [hstep] at h
      injection h with h
      subst h
      exact ⟨[], key, params, rest, rfl, rfl,
        (visit_error_iff c key params.first).1 ⟨e1, hstep⟩, visit_error_indep hstep⟩
    | ok c1 =>
      rw [hstep] at h
      obtain ⟨pre, k, p, post, hq, hpre, hinv, hv⟩ := ih c1 h
      have hne : invalidEntry key params.first = false := by
        cases hi : invalidEntry key params.first
        · rfl
        · obtain ⟨e2, he2⟩ := (visit_error_iff c key params.first).2 hi
          rw [hstep] at he2
          cases he2
      refine ⟨(key, params) :: pre, k, p, post, by rw [hq]; rfl, ?_, hinv, hv⟩
      simp only [invalidQuery, List.any_cons, hne, Bool.false_or] at hpre ⊢
      exact hpre

/-- C12 (amended).  For a mapping with distinct keys and any two orders `q1`, `q2` in
which its entries are visited: if one order resolves, the other resolves to the same
seed, duration, fps and bitrate and `serveVideo` runs identically; one order fails if and
only if the other does; each failure returns the error of the first invalid entry that
its order visits (every entry visited before it is valid), which is an entry of the
mapping, so the two orders return the same error whenever the mapping has no two
different invalid entries. -/
theorem C12_order (R : Rand) (env : Env) (q1 q2 : Values) (hp : q1.Perm q2)
    (hq : (keys q1).Nodup) :
    (∀ cfg, resolve q1 = .ok cfg →
      resolve q2 = .ok cfg ∧ serveVideo R env q2 = serveVideo R env q1) ∧
    ((∃ e, resolve q1 = .error e) ↔ (∃ e, resolve q2 = .error e)) ∧
    (∀ e1 e2, resolve q1 = .error e1 → resolve q2 = .error e2 →
      (∃ key p, (key, p) ∈ q1 ∧ visit defaults key p.first = .error e1) ∧
      (∃ key p, (key, p) ∈ q1 ∧ visit defaults key p.first = .error e2)) ∧
    ((∀ x ∈ q1, ∀ y ∈ q1, invalidEntry x.1 x.2.first = true →
        invalidEntry y.1 y.2.first = true → x = y) →
      resolve q1 = resolve q2 ∧ serveVideo R env q1 = serveVideo R env q2) ∧
    (∀ e1, resolve q1 = .error e1 →
      ∃ pre key p post, q1 = pre ++ (key, p) :: post ∧ invalidQuery pre = false ∧
        invalidEntry key p.first = true ∧ visit defaults key p.first = .error e1) ∧
    (∀ e2, resolve q2 = .error e2 →
      ∃ pre key p post, q2 = pre ++ (key, p) :: post ∧ invalidQuery pre = false ∧
        invalidEntry key p.first = true ∧ visit defaults key p.first = .error e2) := by
  have hiff : (∃ e, resolve q1 = .error e) ↔ (∃ e, resolve q2 = .error e) := by
    unfold resolve
    rw [resolveFrom_error_iff, resolveFrom_error_iff, invalidQuery_perm hp]
  have hent : ∀ e1 e2, resolve q1 = .error e1 → resolve q2 = .error e2 →
      (∃ key p, (key, p) ∈ q1 ∧ visit defaults key p.first = .error e1) ∧
      (∃ key p, (key, p) ∈ q1 ∧ visit defaults key p.first = .error e2) := by
    intro e1 e2 h1 h2
    refine ⟨resolveFrom_error_entry q1 defaults e1 h1, ?_⟩
    obtain ⟨key, p, hmem, hv⟩ := resolveFrom_error_entry q2 defaults e2 h2
    exact ⟨key, p, (List.Perm.mem_iff hp).2 hmem, hv⟩
  refine ⟨fun cfg h1 => ?_, hiff, hent, fun huniq => ?_,
    fun e1 h1 => resolveFrom_error_first q1 defaults e1 h1,
    fun e2 h2 => resolveFrom_error_first q2 defaults e2 h2⟩
  · have h2 := resolve_perm_ok hp hq h1
    exact ⟨h2, serveVideo_congr R env q2 q1 (by rw [h1, h2])⟩
  · have heq : resolve q1 = resolve q2 := by
      cases h1 : resolve q1 with
      | ok cfg => rw [resolve_perm_ok hp hq h1]
      | error e1 =>
        obtain ⟨e2, h2⟩ := hiff.1 ⟨e1, h1⟩
        obtain ⟨⟨k1, p1, hm1, hv1⟩, ⟨k2, p2, hm2, hv2⟩⟩ := hent e1 e2 h1 h2
        have hi1 := (visit_error_iff defaults k1 p1.first).1 ⟨e1, hv1⟩
        have hi2 := (visit_error_iff defaults k2 p2.first).1 ⟨e2, hv2⟩
        have hxy := huniq (k1, p1) hm1 (k2, p2) hm2 hi1 hi2
        injection hxy with hk hpp
        subst hk hpp
        rw [hv1] at hv2
        rw [h2, hv2]
    exact ⟨heq, serveVideo_congr R env q1 q2 heq⟩

/-- C12 (witness).  The amended statement for the two orders of `seed=7, fps=12`. -/
theorem C12_order_witness :
    resolve [("fps", ⟨"12", []⟩), ("seed", ⟨"7", []⟩)] = .ok ⟨12, 2000000000, 6000000, 7⟩ ∧
    serveVideo counterRand quietEnv [("fps", ⟨"12", []⟩), ("seed", ⟨"7", []⟩)]
      = serveVideo counterRand quietEnv [("seed", ⟨"7", []⟩), ("fps", ⟨"12", []⟩)] :=
  (C12_order counterRand quietEnv [("seed", ⟨"7", []⟩), ("fps", ⟨"12", []⟩)]
    [("fps", ⟨"12", []⟩), ("seed", ⟨"7", []⟩)] (by decide) (by decide)).1
    ⟨12, 2000000000, 6000000, 7⟩ (by decide)

/-- C13.  Entries whose key is not `seed`, `duration`, `fps` or `bitrate` do not count:
two queries with the same recognized entries in the same visiting order (whatever
unrecognized entries each has, with whatever values) resolve to the same result, error
included, and `serveVideo` runs identically on them; and if the recognized entries, with
distinct keys, are visited in another order, the resolved parameters are still the same
and one query fails if and only if the other does. -/
theorem C13_unrecognized (R : Rand) (env : Env) (q1 q2 : Values) :
    ((q1.filter fun e => recognized e.1) = (q2.filter fun e => recognized e.1) →
      resolve q1 = resolve q2 ∧ serveVideo R env q1 = serveVideo R env q2) ∧
    ((q1.filter fun e => recognized e.1).Perm (q2.filter fun e => recognized e.1) →
      (keys (q1.filter fun e => recognized e.1)).Nodup →
      (∀ cfg, resolve q1 = .ok cfg →
        resolve q2 = .ok cfg ∧ serveVideo R env q2 = serveVideo R env q1) ∧
      ((∃ e, resolve q1 = .error e) ↔ (∃ e, resolve q2 = .error e))) := by
  have h1 : resolve (q1.filter fun e => recognized e.1) = resolve q1 :=
    resolveFrom_filter q1 defaults
  have h2 : resolve (q2.filter fun e => recognized e.1) = resolve q2 :=
    resolveFrom_filter q2 defaults
  constructor
  · intro h
    have heq : resolve q1 = resolve q2 := by rw [← h1, ← h2, h]
    exact ⟨heq, serveVideo_congr R env q1 q2 heq⟩
  · intro hp hq
    constructor
    · intro cfg hc
      have hc2 : resolve q2 = .ok cfg := by
        rw [← h2]
        exact resolve_perm_ok hp hq (by rw [h1]; exact hc)
      exact ⟨hc2, serveVideo_congr R env q2 q1 (by rw [hc, hc2])⟩
    · rw [← h1, ← h2]
      unfold resolve
      rw [resolveFrom_error_iff, resolveFrom_error_iff, invalidQuery_perm hp]

/-- C13 (witness).  Adding `quality=abc` and `x=-1` around `fps=12` changes nothing. -/
theorem C13_unrecognized_witness :
    resolve [("quality", ⟨"abc", []⟩), ("fps", ⟨"12", []⟩), ("x", ⟨"-1", ["0"]⟩)]
      = resolve [("fps", ⟨"12", []⟩)] ∧
    serveVideo counterRand quietEnv
        [("quality", ⟨"abc", []⟩), ("fps", ⟨"12", []⟩), ("x", ⟨"-1", ["0"]⟩)]
      = serveVideo counterRand quietEnv [("fps", ⟨"12", []⟩)] :=
  (C13_unrecognized counterRand quietEnv
    [("quality", ⟨"abc", []⟩), ("fps", ⟨"12", []⟩), ("x", ⟨"-1", ["0"]⟩)]
    [("fps", ⟨"12", []⟩)]).1 (by decide)

/-- C14.  Only `params[0]` of an entry is consulted: two queries that have the same keys
with the same first values, in the same visiting order, resolve to the same result and
`serveVideo` runs identically on them, whatever values follow the first (none, valid or
invalid ones). -/
theorem C14_first_value (R : Rand) (env : Env) (q1 q2 : Values)
    (h : firsts q1 = firsts q2) :
    resolve q1 = resolve q2 ∧ serveVideo R env q1 = serveVideo R env q2 := by
  have heq : resolve q1 = resolve q2 := resolveFrom_firsts q1 q2 defaults h
  exact ⟨heq, serveVideo_congr R env q1 q2 heq⟩

/-- C14 (witness).  The values `abc` and `-1` after the first value `10` of `fps` are not
looked at. -/
theorem C14_first_value_witness :
    resolve [("fps", ⟨"10", ["abc", "-1"]⟩)] = resolve [("fps", ⟨"10", []⟩)] ∧
    serveVideo counterRand quietEnv [("fps", ⟨"10", ["abc", "-1"]⟩)]
      = serveVideo counterRand quietEnv [("fps", ⟨"10", []⟩)] :=
  C14_first_value counterRand quietEnv [("fps", ⟨"10", ["abc", "-1"]⟩)]
    [("fps", ⟨"10", []⟩)] (by decide)

/-! ## Every run of the loop -/

/-- In every run of the loop, whatever the environment does, each frame written is
followed by one flush and one pacing wait, at most `n` frames are written, and each has
`size` bytes. -/
theorem emit_counts (R : Rand) (env : Env) (size : Nat) :
    ∀ (n i : Nat) (s : R.σ),
      waits (emit R env size n i s).events = (writes (emit R env size n i s).events).length ∧
      flushes (emit R env size n i s).events
        = (writes (emit R env size n i s).events).length ∧
      (writes (emit R env size n i s).events).length ≤ n ∧
      ∀ p ∈ writes (emit R env size n i s).events, p.length = size := by
  intro n
  induction n with
  | zero =>
    intro i s
    simp [emit, waits, writes, flushes]
  | succ n ih =>
    intro i s
    cases hr : env.readErr i with
    | true =>
      rw [emit_readErr R env size n i s hr]
      simp [waits, writes, flushes]
    | false =>
      cases hw : env.writeErr i with
      | true =>
        rw [emit_writeErr R env size n i s hr hw]
        simp [waits, writes, flushes]
      | false =>
        cases hc : (env.select i).cancels with
        | true =>
          rw [emit_cancel R env size n i s hr hw hc]
          simp [waits, writes, flushes, Read_length]
        | false =>
          have hcalm : env.calm i = true := (calm_iff env i).2 ⟨hr, hw, hc⟩
          rw [emit_step R env size n i s hcalm]
          obtain ⟨h1, h2, h3, h4⟩ := ih (i + 1) (R.Read size s).2
          unfold flushes at h2 ⊢
          refine ⟨?_, ?_, ?_, ?_⟩
          · simp [round, waits, writes, h1]
          · simp [round, writes, h2]
          · simp [round, writes]
            omega
          · intro p hp
            simp [round, writes] at hp
            rcases hp with hp | hp
            · rw [hp]; exact Read_length R size s
            · exact h4 p hp

/-- The loop never writes more than `n * size` bytes. -/
theorem emit_body_le (R : Rand) (env : Env) (size n i : Nat) (s : R.σ) :
    (body (emit R env size n i s).events).length ≤ n * size := by
  obtain ⟨_, _, h3, h4⟩ := emit_counts R env size n i s
  unfold body
  rw [flatten_length_of_size _ h4]
  exact Nat.mul_le_mul_right size h3

/-- The loop sees its environment only through the failures of `Read` and `Write` and
through the case each `select` runs. -/
theorem emit_congr (R : Rand) (env1 env2 : Env) (size : Nat)
    (hr : ∀ i, env1.readErr i = env2.readErr i) (hw : ∀ i, env1.writeErr i = env2.writeErr i)
    (hc : ∀ i, (env1.select i).cancels = (env2.select i).cancels) :
    ∀ (n i : Nat) (s : R.σ), emit R env1 size n i s = emit R env2 size n i s := by
  intro n
  induction n with
  | zero => intro i s; rfl
  | succ n ih =>
    intro i s
    simp only [emit, hr i, hw i, hc i, ih]

/-- Every run of `serveVideo`, in every environment, makes one flush and one pacing wait
per frame written. -/
theorem serveVideo_counts (R : Rand) (env : Env) (q : Values) :
    waits (serveVideo R env q).events = (writes (serveVideo R env q).events).length ∧
    flushes (serveVideo R env q).events = (writes (serveVideo R env q).events).length := by
  cases hres : resolve q with
  | error err =>
    rw [serveVideo_of_error R env q err hres]
    exact ⟨rfl, rfl⟩
  | ok cfg =>
    cases hs : setup cfg with
    | error msg =>
      rw [serveVideo_of_panic R env q cfg msg hres hs]
      exact ⟨rfl, rfl⟩
    | ok g =>
      rw [serveVideo_of_setup R env q cfg g hres hs]
      obtain ⟨h1, h2, _, _⟩ := emit_counts R env g.frameSize.toNat g.frameCount.toNat 0
        (R.NewSource cfg.source)
      exact ⟨h1, h2⟩

/-- No run of `serveVideo` writes more than `frameCount * frameSize` bytes. -/
theorem serveVideo_body_le (R : Rand) (env : Env) (q : Values) (cfg : Config)
    (g : Geometry) (hres : resolve q = .ok cfg) (hs : setup cfg = .ok g) :
    (body (serveVideo R env q).events).length ≤ g.frameCount.toNat * g.frameSize.toNat := by
  rw [serveVideo_of_setup R env q cfg g hres hs]
  exact emit_body_le R env _ _ _ _

theorem waits_append (a b : List Event) : waits (a ++ b) = waits a + waits b := by
  induction a with
  | nil => simp [waits]
  | cons e es ih =>
    cases e with
    | wait d => simp [waits, ih]; omega
    | write p ok => simp [waits, ih]
    | read n ok => simp [waits, ih]
    | flush => simp [waits, ih]
    | httpError m c => simp [waits, ih]

/-! ## A run that reaches the wait after frame `j + 1` -/

/-- After `j` calm iterations and a frame `j + 1` filled and written without failure, a
`select` that runs its `ctx.Done()` case ends the run there. -/
theorem serveVideo_stops_at (R : Rand) (env : Env) (q : Values) (cfg : Config)
    (g : Geometry) (j : Nat) (hval : resolve q = .ok cfg) (hset : setup cfg = .ok g)
    (hj : (j : Int) < g.frameCount) (hcalm : env.calmBelow j = true)
    (hr : env.readErr j = false) (hw : env.writeErr j = false)
    (hc : (env.select j).cancels = true) :
    serveVideo R env q =
      ⟨rounds g.frameSize.toNat (frames R g.frameSize.toNat j (R.NewSource cfg.source)) ++
          cancelledRound g.frameSize.toNat
            (R.Read g.frameSize.toNat
              (advance R g.frameSize.toNat j (R.NewSource cfg.source))).1,
        .returned (some .ctxErr)⟩ := by
  obtain ⟨m, hm⟩ : ∃ m, g.frameCount.toNat = j + (m + 1) := ⟨g.frameCount.toNat - j - 1, by omega⟩
  have hrun := serveVideo_of_setup R env q cfg g hval hset
  rw [hm, emit_calm R env _ (m + 1) j 0 _
    (fun i _ hi => (calmBelow_iff env j).1 hcalm i (by omega))] at hrun
  simp only [Nat.zero_add] at hrun
  rw [emit_cancel R env _ m j _ hr hw hc] at hrun
  exact hrun

/-- After `j` calm iterations and a frame `j + 1` filled and written without failure, a
`select` that runs its tick case lets the loop go on with iteration `j + 1`. -/
theorem serveVideo_goes_on_at (R : Rand) (env : Env) (q : Values) (cfg : Config)
    (g : Geometry) (j : Nat) (hval : resolve q = .ok cfg) (hset : setup cfg = .ok g)
    (hj : (j : Int) < g.frameCount) (hcalm : env.calmBelow j = true)
    (hr : env.readErr j = false) (hw : env.writeErr j = false)
    (hc : (env.select j).cancels = false) :
    serveVideo R env q =
      ⟨rounds g.frameSize.toNat
          (frames R g.frameSize.toNat (j + 1) (R.NewSource cfg.source)) ++
          (emit R env g.frameSize.toNat (g.frameCount.toNat - (j + 1)) (j + 1)
            (advance R g.frameSize.toNat (j + 1) (R.NewSource cfg.source))).events,
        (emit R env g.frameSize.toNat (g.frameCount.toNat - (j + 1)) (j + 1)
            (advance R g.frameSize.toNat (j + 1) (R.NewSource cfg.source))).outcome⟩ := by
  have hm : g.frameCount.toNat = (j + 1) + (g.frameCount.toNat - (j + 1)) := by omega
  have hcalm2 : ∀ i, 0 ≤ i → i < 0 + (j + 1) → env.calm i = true := by
    intro i _ hi
    rcases Nat.lt_succ_iff_lt_or_eq.1 (by omega : i < j + 1) with h | h
    · exact (calmBelow_iff env j).1 hcalm i h
    · rw [h]; exact (calm_iff env j).2 ⟨hr, hw, hc⟩
  have hrun := serveVideo_of_setup R env q cfg g hval hset
  rw [hm, emit_calm R env _ (g.frameCount.toNat - (j + 1)) (j + 1) 0 _ hcalm2] at hrun
  simp only [Nat.zero_add] at hrun
  exact hrun

/-- C15 (counterexample).  On the request without parameters, let the request be
cancelled already when the wait after the first frame is reached, with a tick ready as
well, and let the runtime pick the tick (`raceEnv`).  Cancellation does not win:
`serveVideo` goes on, fills, writes and flushes a second frame, and returns the
cancellation error only at the second wait. -/
theorem C15_tick_can_win :
    (raceEnv.select 0).cancelled = true ∧ (raceEnv.select 0).tickReady = true ∧
    ∀ R : Rand,
      serveVideo R raceEnv [] =
        ⟨round 25000 (R.Read 25000 (R.NewSource 0)).1 ++
          cancelledRound 25000 (R.Read 25000 (R.Read 25000 (R.NewSource 0)).2).1,
          .returned (some .ctxErr)⟩ ∧
      (writes (serveVideo R raceEnv []).events).length = 2 := by
  refine ⟨rfl, rfl, fun R => ?_⟩
  have hrun : serveVideo R raceEnv [] = emit R raceEnv 25000 (59 + 1) 0 (R.NewSource 0) :=
    serveVideo_of_setup R raceEnv [] defaults ⟨60, 25000⟩ rfl (by decide)
  rw [emit_step R raceEnv 25000 59 0 _ rfl,
    emit_cancel R raceEnv 25000 58 1 _ rfl rfl rfl] at hrun
  refine ⟨hrun, ?_⟩
  rw [hrun]
  rfl

/-- C15 (amended).  Let the run have reached the wait after frame `j + 1` and let the
request be cancelled already at that moment.  If no tick is ready, `serveVideo` returns
the cancellation error and does not proceed.  If a tick is ready as well, the `select`
takes either case: when it takes `ctx.Done()` the run ends in the same way, and when it
takes the tick the loop goes on with the next iteration. -/
theorem C15_race (R : Rand) (env : Env) (q : Values) (cfg : Config) (g : Geometry)
    (j : Nat) (hval : resolve q = .ok cfg) (hset : setup cfg = .ok g)
    (hj : (j : Int) < g.frameCount) (hcalm : env.calmBelow j = true)
    (hr : env.readErr j = false) (hw : env.writeErr j = false)
    (hc : (env.select j).cancelled = true) :
    ((env.select j).tickReady = false ∨ env.select j = .both true →
      serveVideo R env q =
        ⟨rounds g.frameSize.toNat (frames R g.frameSize.toNat j (R.NewSource cfg.source)) ++
            cancelledRound g.frameSize.toNat
              (R.Read g.frameSize.toNat
                (advance R g.frameSize.toNat j (R.NewSource cfg.source))).1,
          .returned (some .ctxErr)⟩) ∧
    (env.select j = .both false →
      serveVideo R env q =
        ⟨rounds g.frameSize.toNat
            (frames R g.frameSize.toNat (j + 1) (R.NewSource cfg.source)) ++
            (emit R env g.frameSize.toNat (g.frameCount.toNat - (j + 1)) (j + 1)
              (advance R g.frameSize.toNat (j + 1) (R.NewSource cfg.source))).events,
          (emit R env g.frameSize.toNat (g.frameCount.toNat - (j + 1)) (j + 1)
              (advance R g.frameSize.toNat (j + 1) (R.NewSource cfg.source))).outcome⟩) := by
  constructor
  · intro h
    apply serveVideo_stops_at R env q cfg g j hval hset hj hcalm hr hw
    rcases h with h | h
    · cases hs : env.select j with
      | tick => rw [hs] at hc; cases hc
      | done => rfl
      | both pick => rw [hs] at h; cases h
    · rw [h]; rfl
  · intro h
    apply serveVideo_goes_on_at R env q cfg g j hval hset hj hcalm hr hw
    rw [h]; rfl

/-- C15 (witness).  On the request without parameters, a request cancelled at the wait
after the third frame with no tick ready ends the run with three frames written. -/
theorem C15_race_witness :
    serveVideo counterRand ⟨fun _ => false, fun _ => false,
        fun i => if i = 2 then .done else .tick⟩ [] =
      ⟨rounds 25000 (frames counterRand 25000 2 (counterRand.NewSource 0)) ++
          cancelledRound 25000
            (counterRand.Read 25000
              (advance counterRand 25000 2 (counterRand.NewSource 0))).1,
        .returned (some .ctxErr)⟩ :=
  (C15_race counterRand
    ⟨fun _ => false, fun _ => false, fun i => if i = 2 then .done else .tick⟩ []
    ⟨30, 2000000000, 6000000, 0⟩ ⟨60, 25000⟩ 2 (by decide) (by decide) (by decide) (by decide)
    (by decide) (by decide) (by decide)).1 (Or.inl (by decide))

/-- Let the run have reached its loop with `frameCount ≥ 1` and let the first fill
and the first write succeed.  Whatever the state of the request (cancelled on entry or
not), the run starts with the fill, the write and the flush of the first frame, and only
then comes the first `select`; so at least one frame is written and flushed.  Moreover the
run depends on the environment only through the failures of `Read` and `Write` and through
the case each `select` takes: cancellation is not looked at anywhere else. -/
theorem serveVideo_first_frame (R : Rand) (env : Env) (q : Values) (cfg : Config) (g : Geometry)
    (hval : resolve q = .ok cfg) (hset : setup cfg = .ok g) (hn : 1 ≤ g.frameCount)
    (hr : env.readErr 0 = false) (hw : env.writeErr 0 = false) :
    (∃ rest, (serveVideo R env q).events =
      [.read g.frameSize.toNat true,
        .write (R.Read g.frameSize.toNat (R.NewSource cfg.source)).1 true,
        .flush, .wait (env.select 0).cancels] ++ rest) ∧
    1 ≤ (writes (serveVideo R env q).events).length ∧
    1 ≤ flushes (serveVideo R env q).events ∧
    (∀ env2 : Env, (∀ i, env2.readErr i = env.readErr i) →
      (∀ i, env2.writeErr i = env.writeErr i) →
      (∀ i, (env2.select i).cancels = (env.select i).cancels) →
      serveVideo R env2 q = serveVideo R env q) := by
  obtain ⟨m, hm⟩ : ∃ m, g.frameCount.toNat = m + 1 := ⟨g.frameCount.toNat - 1, by omega⟩
  have hrun := serveVideo_of_setup R env q cfg g hval hset
  rw [hm] at hrun
  have hev : ∃ rest, (serveVideo R env q).events =
      [.read g.frameSize.toNat true,
        .write (R.Read g.frameSize.toNat (R.NewSource cfg.source)).1 true,
        .flush, .wait (env.select 0).cancels] ++ rest := by
    cases hc : (env.select 0).cancels with
    | true =>
      rw [emit_cancel R env _ m 0 _ hr hw hc] at hrun
      exact ⟨[], by rw [hrun]; rfl⟩
    | false =>
      rw [emit_step R env _ m 0 _ ((calm_iff env 0).2 ⟨hr, hw, hc⟩)] at hrun
      exact ⟨_, by rw [hrun]; rfl⟩
  obtain ⟨rest, hrest⟩ := hev
  refine ⟨⟨rest, hrest⟩, ?_, ?_, ?_⟩
  · rw [hrest]
    simp [writes]
  · rw [hrest]
    simp [flushes]
  · intro env2 h1 h2 h3
    rw [serveVideo_of_setup R env2 q cfg g hval hset,
      serveVideo_of_setup R env q cfg g hval hset]
    exact emit_congr R env2 env _ h1 h2 h3 _ _ _

/-- C16 (the code on the failing input).  The request `?bitrate=9223372036854775807`
passes validation and line 81 gives `frameCount = 60 ≥ 1`, but the frame size of line 82
is 38430716820228232 bytes, above `maxAlloc`: `make` panics at line 84, and in every
environment, a working transport included, `serveVideo` ends without a fill, a write or a
flush, so no frame is written. -/
theorem C16_no_first_frame :
    resolve [("bitrate", ⟨"9223372036854775807", []⟩)]
      = .ok ⟨30, 2000000000, 9223372036854775807, 0⟩ ∧
    geometry ⟨30, 2000000000, 9223372036854775807, 0⟩ = .ok ⟨60, 38430716820228232⟩ ∧
    maxAlloc < 38430716820228232 ∧
    setup ⟨30, 2000000000, 9223372036854775807, 0⟩
      = .error "runtime error: makeslice: len out of range" ∧
    ∀ (R : Rand) (env : Env),
      serveVideo R env [("bitrate", ⟨"9223372036854775807", []⟩)]
        = ⟨[], .panicked "runtime error: makeslice: len out of range"⟩ ∧
      writes (serveVideo R env [("bitrate", ⟨"9223372036854775807", []⟩)]).events = [] := by
  refine ⟨by decide, by decide, by decide, by decide, fun R env => ?_⟩
  have hrun := serveVideo_of_panic R env [("bitrate", ⟨"9223372036854775807", []⟩)]
    ⟨30, 2000000000, 9223372036854775807, 0⟩ "runtime error: makeslice: len out of range"
    (by decide) (by decide)
  rw [hrun]
  exact ⟨rfl, rfl⟩

/-- C17 (the code on the failing input).  The request `?fps=1000000001` passes validation,
but the ticker period `time.Second / fps` of line 78 is `0`, not strictly positive:
`time.NewTicker` panics, the set-up does not complete, and `handleVideo` ends in that panic
without a call on the response.  At `fps=1000000000` the period is 1 ns and the set-up
succeeds.  The request `?bitrate=9223372036854775807` passes validation as well, and its
frame size is not negative, but at 38430716820228232 bytes it is above `maxAlloc`: the
frame buffer cannot be allocated, `make` panics at line 84 and `handleVideo` ends in that
panic. -/
theorem C17_setup_panics :
    invalidQuery [("fps", ⟨"1000000001", []⟩)] = false ∧
    resolve [("fps", ⟨"1000000001", []⟩)] = .ok ⟨1000000001, 2000000000, 6000000, 0⟩ ∧
    quo Second 1000000001 = 0 ∧
    setup ⟨1000000001, 2000000000, 6000000, 0⟩
      = .error "non-positive interval for NewTicker" ∧
    (∀ (quote : String → String) (R : Rand) (env : Env),
      handleVideo quote R env [("fps", ⟨"1000000001", []⟩)]
        = ⟨[], .panicked "non-positive interval for NewTicker"⟩) ∧
    quo Second 1000000000 = 1 ∧
    setup ⟨1000000000, 2000000000, 6000000, 0⟩ = .ok ⟨2000000000, 0⟩ ∧
    invalidQuery [("bitrate", ⟨"9223372036854775807", []⟩)] = false ∧
    resolve [("bitrate", ⟨"9223372036854775807", []⟩)]
      = .ok ⟨30, 2000000000, 9223372036854775807, 0⟩ ∧
    geometry ⟨30, 2000000000, 9223372036854775807, 0⟩ = .ok ⟨60, 38430716820228232⟩ ∧
    setup ⟨30, 2000000000, 9223372036854775807, 0⟩
      = .error "runtime error: makeslice: len out of range" ∧
    (∀ (quote : String → String) (R : Rand) (env : Env),
      handleVideo quote R env [("bitrate", ⟨"9223372036854775807", []⟩)]
        = ⟨[], .panicked "runtime error: makeslice: len out of range"⟩) := by
  refine ⟨by decide, by decide, by decide, by decide, fun quote R env => ?_, by decide,
    by decide, by decide, by decide, by decide, by decide, fun quote R env => ?_⟩
  · have hrun := serveVideo_of_panic R env [("fps", ⟨"1000000001", []⟩)]
      ⟨1000000001, 2000000000, 6000000, 0⟩ "non-positive interval for NewTicker"
      (by decide) (by decide)
    simp only [handleVideo, hrun]
  · have hrun := serveVideo_of_panic R env [("bitrate", ⟨"9223372036854775807", []⟩)]
      ⟨30, 2000000000, 9223372036854775807, 0⟩ "runtime error: makeslice: len out of range"
      (by decide) (by decide)
    simp only [handleVideo, hrun]

/-- The bits of `frameCount` frames of `frameSize` bytes, sent over `d` milliseconds, stay
within the bitrate. -/
theorem bits_le {f d b : Int} (hf : 0 < f) (hd : 0 < d) (hb : 0 < b) :
    8000 * (f * d / 1000) * (b / (8 * f)) ≤ b * d := by
  have h1 : f * d / 1000 * 1000 ≤ f * d := Int.ediv_mul_le (f * d) (by decide)
  have h2 : b / (8 * f) * (8 * f) ≤ b := Int.ediv_mul_le b (by omega)
  have hfd : 0 ≤ f * d := le_of_lt (mul_pos hf hd)
  have h3 : 0 ≤ f * d / 1000 := Int.ediv_nonneg hfd (by decide)
  have h4 : 0 ≤ b / (8 * f) := Int.ediv_nonneg (le_of_lt hb) (by omega)
  have h5 : (f * d / 1000 * 1000) * (b / (8 * f) * (8 * f)) ≤ (f * d) * b :=
    mul_le_mul h1 h2 (mul_nonneg h4 (by omega)) hfd
  have h6 : f * (8000 * (f * d / 1000) * (b / (8 * f))) ≤ f * (b * d) := by
    calc f * (8000 * (f * d / 1000) * (b / (8 * f)))
        = (f * d / 1000 * 1000) * (b / (8 * f) * (8 * f)) := by ring
      _ ≤ (f * d) * b := h5
      _ = f * (b * d) := by ring
  exact le_of_mul_le_mul_left h6 hf

/-- C18.  For every request with distinct keys that passes validation, asking for `f`
frames per second, `d` milliseconds and `b` bits per second, whose nanosecond product does
not overflow (`f * d * 10^6 < 2^63`): whenever lines 78-82 yield a frame geometry, and so
whenever the set-up completes, `8000 * frameCount * frameSize ≤ b * d`; lines 78-82 do
yield one, with `frameCount = floor(f * d / 1000)` and `frameSize = floor(b / (8 * f))`,
when `f ≤ 10^9`, and the set-up completes with it when that frame size is at most
`maxAlloc`; and in every run, in every environment, the number of bits written, times
1000, is at most `b * d`. -/
theorem C18_bitrate_bound (q : Values) (cfg : Config) (f d b : Int) (hq : (keys q).Nodup)
    (hval : resolve q = .ok cfg) (hf : requested q "fps" 30 = .ok f)
    (hd : requested q "duration" 2000 = .ok d) (hb : requested q "bitrate" 6000000 = .ok b)
    (hno : f * d * 1000000 < 2 ^ 63) :
    (f ≤ 1000000000 →
      ∃ g, geometry cfg = .ok g ∧ g.frameCount = f * d / 1000 ∧ g.frameSize = b / (8 * f) ∧
        (g.frameSize ≤ maxAlloc → setup cfg = .ok g)) ∧
    (∀ g, geometry cfg = .ok g → 8000 * g.frameCount * g.frameSize ≤ b * d) ∧
    (∀ g, setup cfg = .ok g → 8000 * g.frameCount * g.frameSize ≤ b * d) ∧
    (∀ (R : Rand) (env : Env),
      8000 * ((body (serveVideo R env q).events).length : Int) ≤ b * d) := by
  have hfpos : 0 < f := requested_pos (by decide) (by decide) hval hf
  have hdpos : 0 < d := requested_pos (by decide) (by decide) hval hd
  have hbpos : 0 < b := requested_pos (by decide) (by decide) hval hb
  have hcf : cfg.fps = f := resolve_fps hq hval hf
  have hcd : cfg.duration = wrap64 (d * Millisecond) := resolve_duration hq hval hd
  have hcb : cfg.bitrate = b := resolve_bitrate hq hval hb
  obtain ⟨hfr, hbr⟩ := resolve_range hval
  have hbits := bits_le hfpos hdpos hbpos
  have hshape : ∀ g, geometry cfg = .ok g → g = ⟨f * d / 1000, b / (8 * f)⟩ := by
    intro g hg
    obtain ⟨_, hgeq⟩ := geometry_eq cfg g hfr.1 hfr.2 hbr.1 hbr.2 hg
    rw [hgeq, hcf, hcd, hcb, frameCount_eq hfpos hdpos hno]
  have hgeo : ∀ g, geometry cfg = .ok g → 8000 * g.frameCount * g.frameSize ≤ b * d := by
    intro g hg
    rw [hshape g hg]
    exact hbits
  refine ⟨fun hfps => ?_, hgeo, fun g hg => hgeo g (setup_geometry cfg g hg).1,
    fun R env => ?_⟩
  · have hg := geometry_ok cfg hfr.1 (by omega) hbr.1 hbr.2
    have hsh := hshape _ hg
    refine ⟨_, hg, by rw [hsh], by rw [hsh], fun hsz => ?_⟩
    exact setup_ok cfg hfr.1 (by omega) hbr.1 hbr.2 hsz
  · cases hs : setup cfg with
    | error msg =>
      rw [serveVideo_of_panic R env q cfg msg hval hs]
      have : 0 ≤ b * d := le_of_lt (mul_pos hbpos hdpos)
      simpa [body, writes] using this
    | ok g =>
      have hle := serveVideo_body_le R env q cfg g hval hs
      have hsh := hshape g (setup_geometry cfg g hs).1
      subst hsh
      have h3 : 0 ≤ f * d / 1000 := Int.ediv_nonneg (le_of_lt (mul_pos hfpos hdpos)) (by decide)
      have h4 : 0 ≤ b / (8 * f) := Int.ediv_nonneg (le_of_lt hbpos) (by omega)
      have hcast : (((f * d / 1000).toNat * (b / (8 * f)).toNat : Nat) : Int)
          = (f * d / 1000) * (b / (8 * f)) := by
        rw [Nat.cast_mul, Int.toNat_of_nonneg h3, Int.toNat_of_nonneg h4]
      have hle2 : ((body (serveVideo R env q).events).length : Int)
          ≤ (f * d / 1000) * (b / (8 * f)) := by
        rw [← hcast]
        exact Int.ofNat_le.2 hle
      calc 8000 * ((body (serveVideo R env q).events).length : Int)
          ≤ 8000 * ((f * d / 1000) * (b / (8 * f))) :=
            mul_le_mul_of_nonneg_left hle2 (by decide)
        _ = 8000 * (f * d / 1000) * (b / (8 * f)) := by ring
        _ ≤ b * d := hbits

/-- C18 (witness).  The statement at `?fps=7&duration=1500&bitrate=1000`: 10 frames of 17
bytes, 1,360,000 ≤ 1,500,000. -/
theorem C18_bitrate_bound_witness :
    ∃ g, geometry ⟨7, 1500000000, 1000, 0⟩ = .ok g ∧ g.frameCount = 7 * 1500 / 1000 ∧
      g.frameSize = 1000 / (8 * 7) ∧
      (g.frameSize ≤ maxAlloc → setup ⟨7, 1500000000, 1000, 0⟩ = .ok g) :=
  (C18_bitrate_bound
    [("fps", ⟨"7", []⟩), ("duration", ⟨"1500", []⟩), ("bitrate", ⟨"1000", []⟩)]
    ⟨7, 1500000000, 1000, 0⟩ 7 1500 1000 (by decide) (by decide) (by decide) (by decide)
    (by decide) (by decide)).1 (by decide)

/-- C19.  Every run makes one pacing wait per frame written, the last frame included.
In a run where all `frameCount = j + 1 ≥ 1` frames are filled, written and flushed, the
`select` runs once more after the last frame; if it takes the `ctx.Done()` case,
`serveVideo` returns the cancellation error although the whole body,
`frameCount * frameSize` bytes, has been written. -/
theorem C19_final_wait (R : Rand) (env : Env) (q : Values) (cfg : Config) (g : Geometry)
    (j : Nat) (hval : resolve q = .ok cfg) (hset : setup cfg = .ok g)
    (hj : (j : Int) + 1 = g.frameCount) (hcalm : env.calmBelow j = true)
    (hr : env.readErr j = false) (hw : env.writeErr j = false)
    (hc : (env.select j).cancels = true) :
    serveVideo R env q =
      ⟨rounds g.frameSize.toNat (frames R g.frameSize.toNat j (R.NewSource cfg.source)) ++
          cancelledRound g.frameSize.toNat
            (R.Read g.frameSize.toNat
              (advance R g.frameSize.toNat j (R.NewSource cfg.source))).1,
        .returned (some .ctxErr)⟩ ∧
    writes (serveVideo R env q).events
      = frames R g.frameSize.toNat g.frameCount.toNat (R.NewSource cfg.source) ∧
    (body (serveVideo R env q).events).length = g.frameCount.toNat * g.frameSize.toNat ∧
    waits (serveVideo R env q).events = g.frameCount.toNat ∧
    flushes (serveVideo R env q).events = g.frameCount.toNat ∧
    (∀ (env2 : Env) (q2 : Values),
      waits (serveVideo R env2 q2).events = (writes (serveVideo R env2 q2).events).length) := by
  have hn : g.frameCount.toNat = j + 1 := by omega
  have hrun := serveVideo_stops_at R env q cfg g j hval hset (by omega) hcalm hr hw hc
  have hwr : writes (serveVideo R env q).events
      = frames R g.frameSize.toNat g.frameCount.toNat (R.NewSource cfg.source) := by
    rw [hrun, hn, frames_succ]
    simp only [writes_append, writes_rounds]
    rfl
  have hcount := serveVideo_counts R env q
  have hlen : (writes (serveVideo R env q).events).length = g.frameCount.toNat := by
    rw [hwr, frames_length]
  refine ⟨hrun, hwr, ?_, ?_, ?_, fun env2 q2 => (serveVideo_counts R env2 q2).1⟩
  · unfold body
    rw [hwr, flatten_length_of_size _ (frames_size R _ _ _), frames_length]
  · rw [hcount.1, hlen]
  · rw [hcount.2, hlen]

/-- C19 (witness).  On `?duration=100` (3 frames), a cancellation observed in the wait
after the third frame: three frames written, three waits, and the cancellation error. -/
theorem C19_final_wait_witness :
    waits (serveVideo counterRand ⟨fun _ => false, fun _ => false,
        fun i => if i = 2 then .both true else .tick⟩ [("duration", ⟨"100", []⟩)]).events
      = (3 : Int).toNat :=
  (C19_final_wait counterRand
    ⟨fun _ => false, fun _ => false, fun i => if i = 2 then .both true else .tick⟩
    [("duration", ⟨"100", []⟩)] ⟨30, 100000000, 6000000, 0⟩ ⟨3, 25000⟩ 2 (by decide)
    (by decide) (by decide) (by decide) (by decide) (by decide) (by decide)).2.2.2.1

end Origin
